import Mathlib

set_option autoImplicit false

/-!
# Verification of the BusTub storage core against its specification

Shallow embedding of the buffer pool (frame headers, ARC replacer, page
guards, buffer pool manager) and of the B+ tree pages, tree operations and
iterator of this repository, together with theorems settling the
specification claims.

Modelling conventions:
* machine integers become `Int`/`Nat` (no overflow occurs in the verified
  scenarios);
* a C++ on-page array holding `size` live slots becomes a Lean list of
  length `size` (reads and writes past `size` never influence later reads
  on the verified paths, and where the source reads a physically retained
  slot after logically clearing it, the model snapshots the value first --
  such spots carry a comment);
* `std::optional` and failed assertions become `Option`; unbounded C++
  loops become fuel-indexed recursions with enough fuel on every verified
  path;
* acquiring a page through the pool with an invalid or absent page id is
  modelled as an error result, since the real code would then read
  unspecified bytes from the external disk manager.
-/

namespace BusTub

/-- `INVALID_PAGE_ID` from `common/config.h`. -/
def invalidPageId : Int := -1

/-- Insert an element before position `n`, appending when `n` is past the
end: the shift-and-place loops of the leaf/internal page code. -/
def insertAt {α : Type} : Nat → α → List α → List α
  | 0, a, xs => a :: xs
  | _ + 1, a, [] => [a]
  | n + 1, a, x :: xs => x :: insertAt n a xs

/-- Remove the element at position `n` (no-op past the end): the
shift-down deletion loops of the leaf/internal page code. -/
def eraseAt {α : Type} : Nat → List α → List α
  | _, [] => []
  | 0, _ :: xs => xs
  | n + 1, x :: xs => x :: eraseAt n xs

/-! ## B+ tree leaf page (`storage/page/b_plus_tree_leaf_page.cpp`)

The template parameter `TOMB_CAP` (`LEAF_PAGE_TOMB_CNT`) is passed as an
explicit `cap : Nat` argument to the operations that branch on it.  Keys
are modelled as `Int` with the comparator given by the usual order, record
ids as `Nat`. -/

/-- Shallow embedding of `BPlusTreeLeafPage`.  `keys`/`rids` are the first
`size_` slots of `key_array_`/`rid_array_` (so `keys.length` plays the
role of `GetSize()`); `tombstones` is the first `num_tombstones_` entries
of `tombstones_`, in deletion (FIFO) order. -/
structure LeafPage where
  pageId : Int := -1
  fatherPageId : Int := -1
  nextPageId : Int := -1
  prePageId : Int := -1
  maxSize : Nat := 0
  keys : List Int := []
  rids : List Nat := []
  tombstones : List Nat := []
  isBegin : Bool := false
  isUpdate : Bool := false
  needDeepUpdate : Bool := false
  beforeFirstKey : Int := 0
  deriving Repr, DecidableEq

namespace LeafPage

/-- `Init(max_size)`: fresh leaf page state (a newly allocated frame is
zero-filled, so the fields `Init` does not mention are `false`/`0`). -/
def init (maxSize : Nat) : LeafPage :=
  { maxSize := maxSize }

/-- `GetSize()`: number of physically stored entries (tombstones included). -/
def size (l : LeafPage) : Nat := l.keys.length

/-- `GetMinSize()` from `BPlusTreePage`: `ceil(max_size / 2)`. -/
def minSize (l : LeafPage) : Nat := (l.maxSize + 1) / 2

/-- `IsTombstone(index)`: scan of the tombstone buffer. -/
def isTombstone (l : LeafPage) (index : Nat) : Bool := l.tombstones.contains index

/-- `GetMinKey()`: reads `key_array_[0]`. -/
def getMinKey (l : LeafPage) : Int := l.keys.getD 0 0

/-- `IsEmpty()`: `GetSize() == 0`. -/
def isEmpty (l : LeafPage) : Bool := l.keys.length = 0

/-- The loop of `RemoveTombstone(index)`: drop the first buffer entry equal
to `index`, shifting the rest down. -/
def removeTombstone : List Nat → Nat → List Nat
  | [], _ => []
  | t :: rest, idx => if t = idx then rest else t :: removeTombstone rest idx

/-- `MarkTomb(index)`: append the slot index to the tombstone buffer. -/
def markTomb (index : Nat) (l : LeafPage) : LeafPage :=
  { l with tombstones := l.tombstones ++ [index] }

/-- The binary-search loop of `MatchKey`: slot of `key` iff present and not
tombstoned (`-1`, here `none`, otherwise).  The fuel bounds the number of
loop iterations; the range shrinks every round, so `keys.length + 1`
always suffices. -/
def matchKeyGo (l : LeafPage) (cap : Nat) (key : Int) :
    Nat → Int → Int → Option Nat
  | 0, _, _ => none
  | fuel + 1, b, e =>
    if b ≤ e then
      let mid := (e - b) / 2 + b
      let stored := l.keys.getD mid.toNat 0
      if stored > key then matchKeyGo l cap key fuel b (mid - 1)
      else if stored < key then matchKeyGo l cap key fuel (mid + 1) e
      else if 0 < cap ∧ l.isTombstone mid.toNat then none
      else some mid.toNat
    else none

/-- `MatchKey(key)`. -/
def matchKey (l : LeafPage) (cap : Nat) (key : Int) : Option Nat :=
  matchKeyGo l cap key (l.keys.length + 1) 0 ((l.keys.length : Int) - 1)

/-- The binary-search loop of `BinarySearch` (insertion position; `-1` when
the key is already stored). -/
def binarySearchGo (l : LeafPage) (key : Int) :
    Nat → Int → Int → Int → Int
  | 0, _, _, result => result
  | fuel + 1, b, e, result =>
    if b ≤ e then
      let mid := (e - b) / 2 + b
      let stored := l.keys.getD mid.toNat 0
      if stored > key then binarySearchGo l key fuel b (mid - 1) mid
      else if stored < key then binarySearchGo l key fuel (mid + 1) e result
      else -1
    else result

/-- `BinarySearch(key)`. -/
def binarySearch (l : LeafPage) (key : Int) : Int :=
  binarySearchGo l key (l.keys.length + 1) 0 ((l.keys.length : Int) - 1)
    (l.keys.length : Int)

/-- The inner exact-match loop of `InsertKeyValue` (entered when
`BinarySearch` reported a duplicate). -/
def findSlotGo (l : LeafPage) (key : Int) : Nat → Int → Int → Option Nat
  | 0, _, _ => none
  | fuel + 1, b, e =>
    if b ≤ e then
      let mid := (e - b) / 2 + b
      let stored := l.keys.getD mid.toNat 0
      if stored > key then findSlotGo l key fuel b (mid - 1)
      else if stored < key then findSlotGo l key fuel (mid + 1) e
      else some mid.toNat
    else none

/-- `InsertKeyValue(comparator, key, value)`: returns the C++ `bool`
result together with the updated page. -/
def insertKeyValue (cap : Nat) (key : Int) (value : Nat) (l : LeafPage) :
    Bool × LeafPage :=
  if l.keys.length = 0 then
    (true, { l with keys := [key], rids := [value] })
  else
    let index := l.binarySearch key
    let l0 := if index = 0 then { l with isBegin := true } else l
    if index = -1 then
      match l0.findSlotGo key (l0.keys.length + 1) 0 ((l0.keys.length : Int) - 1) with
      | some mid =>
        if 0 < cap ∧ l0.isTombstone mid then
          -- tombstoned duplicate: clear the tombstone and overwrite the value
          (true, { l0 with tombstones := removeTombstone l0.tombstones mid,
                           rids := l0.rids.set mid value })
        else (false, l0)
      | none => (false, l0)
    else
      let idx := index.toNat
      let tombs :=
        if 0 < cap then
          l0.tombstones.map (fun t => if idx ≤ t then t + 1 else t)
        else l0.tombstones
      (true, { l0 with tombstones := tombs,
                       keys := insertAt idx key l0.keys,
                       rids := insertAt idx value l0.rids })

/-- `Delete(key, comparator)`. -/
def delete (cap : Nat) (key : Int) (l : LeafPage) : LeafPage :=
  match l.matchKey cap key with
  | none => l
  | some index =>
    if cap = 0 then
      -- eager physical deletion (`LEAF_PAGE_TOMB_CNT == 0`)
      let l1 := { l with keys := eraseAt index l.keys, rids := eraseAt index l.rids }
      if index = 0 then
        { l1 with beforeFirstKey := if !l.isUpdate then key else l.beforeFirstKey,
                  isUpdate := true }
      else l1
    else
      if cap ≤ l.tombstones.length then
        -- buffer full: expel the oldest tombstoned slot first
        match l.tombstones with
        | [] => l        -- dead guard in the source (`GetNumTombstones() == 0`)
        | t0 :: rest =>
          let deletedKey := l.keys.getD t0 0
          let l1 := { l with
            keys := eraseAt t0 l.keys,
            rids := eraseAt t0 l.rids,
            tombstones := rest.map fun t => if t0 < t then t - 1 else t,
            beforeFirstKey := if t0 = 0 then deletedKey else l.beforeFirstKey,
            needDeepUpdate := if t0 = 0 then true else l.needDeepUpdate }
          let index' := if t0 < index then index - 1 else index
          let l2 := l1.markTomb index'
          if !l.isUpdate ∧ index' = 0 then { l2 with isUpdate := true } else l2
      else
        let l2 := l.markTomb index
        if !l.isUpdate ∧ index = 0 then { l2 with isUpdate := true } else l2

/-- `CleanupTombs()`: compact away every tombstoned slot, remembering the
pre-compaction first key. -/
def cleanupTombs (l : LeafPage) : LeafPage :=
  let live := (List.range l.keys.length).filter (fun i => l.isTombstone i = false)
  { l with beforeFirstKey := l.keys.getD 0 0,
           keys := live.map (fun i => l.keys.getD i 0),
           rids := live.map (fun i => l.rids.getD i 0),
           tombstones := [] }

/-- `Absorb(page)`: append `page`'s entries and re-indexed tombstones, clear
`page`, and return (`this`, cleared `page`, `begin_key`).  `begin_key` reads
`page->key_array_[0]`; when `page` is empty the source reads a physically
retained slot, modelled by the default `0`. -/
def absorb (l page : LeafPage) : LeafPage × LeafPage × Int :=
  let beginKey := page.keys.getD 0 0
  let l' := { l with
    keys := l.keys ++ page.keys,
    rids := l.rids ++ page.rids,
    tombstones := l.tombstones ++ page.tombstones.map (· + l.keys.length) }
  let page' := { page with keys := [], rids := [], tombstones := [] }
  (l', page', beginKey)

/-- `InsertBegin(pair)`: prepend, shifting every tombstone index up. -/
def insertBegin (pair : Int × Nat) (l : LeafPage) : LeafPage :=
  { l with tombstones := l.tombstones.map (· + 1),
           keys := pair.1 :: l.keys,
           rids := pair.2 :: l.rids }

/-- `InsertBack(pair)`. -/
def insertBack (pair : Int × Nat) (l : LeafPage) : LeafPage :=
  { l with keys := l.keys ++ [pair.1], rids := l.rids ++ [pair.2] }

/-- `PopBack()`: remove and return the last non-tombstoned entry (default
pair and no mutation when none exists, mirroring the source). -/
def popBack (l : LeafPage) : (Int × Nat) × LeafPage :=
  match (List.range l.keys.length).reverse.find? (fun i => l.isTombstone i = false) with
  | none => ((0, 0), l)
  | some i =>
    ((l.keys.getD i 0, l.rids.getD i 0),
      { l with keys := eraseAt i l.keys, rids := eraseAt i l.rids,
               tombstones := l.tombstones.map fun t => if i < t then t - 1 else t })

/-- `PopFront()`: remove and return the first non-tombstoned entry. -/
def popFront (l : LeafPage) : (Int × Nat) × LeafPage :=
  match (List.range l.keys.length).find? (fun i => l.isTombstone i = false) with
  | none => ((0, 0), l)
  | some i =>
    ((l.keys.getD i 0, l.rids.getD i 0),
      { l with keys := eraseAt i l.keys, rids := eraseAt i l.rids,
               tombstones := l.tombstones.map fun t => if i < t then t - 1 else t })

/-- The search loop of `FindAndPush`: push every non-tombstoned match,
continuing to the right after a hit. -/
def findAndPushGo (l : LeafPage) (cap : Nat) (key : Int) :
    Nat → Int → Int → List Nat → List Nat
  | 0, _, _, acc => acc
  | fuel + 1, b, e, acc =>
    if b ≤ e then
      let mid := (e - b) / 2 + b
      let stored := l.keys.getD mid.toNat 0
      if stored > key then findAndPushGo l cap key fuel b (mid - 1) acc
      else if stored < key then findAndPushGo l cap key fuel (mid + 1) e acc
      else if 0 < cap ∧ l.isTombstone mid.toNat then
        findAndPushGo l cap key fuel (mid + 1) e acc
      else findAndPushGo l cap key fuel (mid + 1) e (acc ++ [l.rids.getD mid.toNat 0])
    else acc

/-- `FindAndPush(comparator, key, result)`: the values pushed into `result`. -/
def findAndPush (cap : Nat) (key : Int) (l : LeafPage) : List Nat :=
  findAndPushGo l cap key (l.keys.length + 1) 0 ((l.keys.length : Int) - 1) []

/-- `Split(new_leaf_page)`: move the upper half (split point `size / 2`) of
entries and the tombstones falling in it (re-indexed) to the fresh right
sibling, and relink the leaf list.  `newPage` is the freshly initialized
sibling (the source writes its slots from position 0). -/
def split (l newPage : LeafPage) : LeafPage × LeafPage :=
  let totalSize := l.keys.length
  let splitIndex := totalSize / 2
  let movedTombs := (l.tombstones.filter (fun t => splitIndex ≤ t)).map (· - splitIndex)
  let right := { newPage with
    nextPageId := l.nextPageId,
    prePageId := l.pageId,
    keys := l.keys.drop splitIndex,
    rids := l.rids.drop splitIndex,
    tombstones := movedTombs }
  let left := { l with
    nextPageId := newPage.pageId,
    keys := l.keys.take splitIndex,
    rids := l.rids.take splitIndex,
    tombstones := l.tombstones.filter (fun t => t < splitIndex) }
  (left, right)

end LeafPage

/-! ## B+ tree internal page (`storage/page/b_plus_tree_internal_page.cpp`)

In this implementation the physical arrays pair each child page id with a
key at the *same* slot: `keys`/`pageIds` are the first `size_` slots of
`key_array_`/`page_id_array_`. -/

/-- Shallow embedding of `BPlusTreeInternalPage`. -/
structure InternalPage where
  pageId : Int := -1
  fatherPageId : Int := -1
  maxSize : Nat := 0
  keys : List Int := []
  pageIds : List Int := []
  deriving Repr, DecidableEq

namespace InternalPage

/-- `Init(max_size)`. -/
def init (maxSize : Nat) : InternalPage :=
  { maxSize := maxSize }

/-- `GetSize()`. -/
def size (p : InternalPage) : Nat := p.keys.length

/-- `GetMinSize()`: `ceil(max_size / 2)`. -/
def minSize (p : InternalPage) : Nat := (p.maxSize + 1) / 2

/-- `KeyAt(index)`: reads `key_array_[index]`. -/
def keyAt (p : InternalPage) (index : Nat) : Int := p.keys.getD index 0

/-- `ValueAt(index)`: reads `page_id_array_[index]`. -/
def valueAt (p : InternalPage) (index : Nat) : Int := p.pageIds.getD index 0

/-- `GetMinKey()`: reads `key_array_[0]`. -/
def getMinKey (p : InternalPage) : Int := p.keys.getD 0 0

/-- `SetKeyAt(index, key)`: a no-op at index 0, otherwise writes the
physical slot `index - 1`. -/
def setKeyAt (p : InternalPage) (index : Nat) (key : Int) : InternalPage :=
  match index with
  | 0 => p
  | i + 1 => { p with keys := p.keys.set i key }

/-- `ValueIndexForPage_id_t(value)`: linear scan of the child ids (`-1`,
here `none`, when absent). -/
def valueIndexForPid (p : InternalPage) (pid : Int) : Option Nat :=
  (List.range p.pageIds.length).find? (fun i => p.pageIds.getD i 0 = pid)

/-- The loop of the internal `BinarySearch` (insertion position; on an
exact hit it returns `mid + 1`). -/
def binarySearchGo (p : InternalPage) (key : Int) :
    Nat → Int → Int → Int → Int
  | 0, _, _, result => result
  | fuel + 1, b, e, result =>
    if b ≤ e then
      let mid := (e - b) / 2 + b
      let stored := p.keys.getD mid.toNat 0
      if stored > key then binarySearchGo p key fuel b (mid - 1) mid
      else if stored < key then binarySearchGo p key fuel (mid + 1) e result
      else mid + 1
    else result

/-- `BinarySearch(comparator, key)`. -/
def binarySearch (p : InternalPage) (key : Int) : Int :=
  binarySearchGo p key (p.keys.length + 1) 0 ((p.keys.length : Int) - 1)
    (p.keys.length : Int)

/-- The loop of the internal `MatchKey` (exact slot or `-1`/`none`). -/
def matchKeyGo (p : InternalPage) (key : Int) : Nat → Int → Int → Option Nat
  | 0, _, _ => none
  | fuel + 1, b, e =>
    if b ≤ e then
      let mid := (e - b) / 2 + b
      let stored := p.keys.getD mid.toNat 0
      if stored > key then matchKeyGo p key fuel b (mid - 1)
      else if stored < key then matchKeyGo p key fuel (mid + 1) e
      else some mid.toNat
    else none

/-- `MatchKey(key, comparator)`. -/
def matchKey (p : InternalPage) (key : Int) : Option Nat :=
  matchKeyGo p key (p.keys.length + 1) 0 ((p.keys.length : Int) - 1)

/-- `FirstInsert(key_left, key_right, left_page_id, right_page_id)`:
populate a freshly initialized internal page (the source writes physical
slots 0 and 1 and adds 2 to the size). -/
def firstInsert (keyLeft keyRight leftPid rightPid : Int) (p : InternalPage) :
    InternalPage :=
  { p with keys := [keyLeft, keyRight], pageIds := [leftPid, rightPid] }

/-- `InsertKeyValue(comparator, key, value)` on an internal page. -/
def insertKeyValue (key : Int) (value : Int) (p : InternalPage) :
    Bool × InternalPage :=
  let index := p.binarySearch key
  if index = -1 then (false, p)
  else
    (true, { p with keys := insertAt index.toNat key p.keys,
                    pageIds := insertAt index.toNat value p.pageIds })

/-- `UpdateKey(index, page_id)`: overwrite the child id at `index`. -/
def updateChildAt (p : InternalPage) (index : Nat) (pid : Int) : InternalPage :=
  { p with pageIds := p.pageIds.set index pid }

/-- `UpdateKey(index, std::optional<KeyType>)`: overwrite the key at
`index` (`value()` on an empty optional would throw; every call site
passes a value, modelled by the default). -/
def updateKeyAt (p : InternalPage) (index : Nat) (key : Option Int) : InternalPage :=
  { p with keys := p.keys.set index (key.getD 0) }

/-- `UpdateKey(key, pair, comparator)`: locate `key` and overwrite its
slot with the new key/child pair (the source indexes the arrays with the
unchecked `MatchKey` result; a miss, which is undefined behaviour there,
leaves the page unchanged here). -/
def updateKeyPair (p : InternalPage) (key : Int) (pair : Int × Int) : InternalPage :=
  match p.matchKey key with
  | none => p
  | some i => { p with keys := p.keys.set i pair.1, pageIds := p.pageIds.set i pair.2 }

/-- `DeletePair(index)`. -/
def deletePair (p : InternalPage) (index : Nat) : InternalPage :=
  { p with keys := eraseAt index p.keys, pageIds := eraseAt index p.pageIds }

/-- `InsertBack(pair)`. -/
def insertBack (pair : Int × Int) (p : InternalPage) : InternalPage :=
  { p with keys := p.keys ++ [pair.1], pageIds := p.pageIds ++ [pair.2] }

/-- `InsertBegin(pair)`. -/
def insertBegin (pair : Int × Int) (p : InternalPage) : InternalPage :=
  { p with keys := pair.1 :: p.keys, pageIds := pair.2 :: p.pageIds }

/-- `PopBack()`: drop the last pair and return it. -/
def popBack (p : InternalPage) : (Int × Int) × InternalPage :=
  let n := p.keys.length - 1
  ((p.keys.getD n 0, p.pageIds.getD n 0),
    { p with keys := p.keys.take n, pageIds := p.pageIds.take n })

/-- `PopFront()`: drop the first pair and return it. -/
def popFront (p : InternalPage) : (Int × Int) × InternalPage :=
  ((p.keys.getD 0 0, p.pageIds.getD 0 0),
    { p with keys := p.keys.tail, pageIds := p.pageIds.tail })

/-- `Absorb(page, v)`: append all of `page`'s pairs (recording the moved
child ids in `v`), clear `page`, and return the first key of `page`. -/
def absorb (p page : InternalPage) : InternalPage × InternalPage × Int × List Int :=
  let beginKey := page.keyAt 0
  let p' := { p with keys := p.keys ++ page.keys, pageIds := p.pageIds ++ page.pageIds }
  let page' := { page with keys := [], pageIds := [] }
  (p', page', beginKey, page.pageIds)

/-- `GetPrePageId(father_write)`: the left sibling's id through the parent
(`INVALID_PAGE_ID` when this child is the first; an absent child, which is
undefined behaviour in the source, also yields `INVALID_PAGE_ID` here). -/
def getPrePageId (p father : InternalPage) : Int :=
  match father.valueIndexForPid p.pageId with
  | none => invalidPageId
  | some 0 => invalidPageId
  | some (i + 1) => father.pageIds.getD i 0

/-- `GetNextPageId(father_write)`: the right sibling's id through the
parent (on a missed lookup the source continues with index `-1`). -/
def getNextPageId (p father : InternalPage) : Int :=
  let idx : Int := match father.valueIndexForPid p.pageId with
    | none => -1
    | some i => (i : Int)
  if idx + 1 < (father.pageIds.length : Int) then father.pageIds.getD (idx + 1).toNat 0
  else invalidPageId

/-- The loop of `AccurateFind`: child id to descend into for `key`. -/
def accurateFindGo (p : InternalPage) (key : Int) : Nat → Int → Int → Int → Int
  | 0, _, _, result =>
    if result = 0 then p.pageIds.getD 0 0 else p.pageIds.getD (result - 1).toNat 0
  | fuel + 1, b, e, result =>
    if b ≤ e then
      let mid := (e - b) / 2 + b
      let stored := p.keys.getD mid.toNat 0
      if stored > key then accurateFindGo p key fuel b (mid - 1) mid
      else if stored < key then accurateFindGo p key fuel (mid + 1) e result
      else p.pageIds.getD mid.toNat 0
    else if result = 0 then p.pageIds.getD 0 0
    else p.pageIds.getD (result - 1).toNat 0

/-- `AccurateFind(comparator, key)`. -/
def accurateFind (p : InternalPage) (key : Int) : Int :=
  accurateFindGo p key (p.keys.length + 1) 0 ((p.keys.length : Int) - 1)
    (p.keys.length : Int)

/-- `Find(comparator, key)`: `BinarySearch`, then step one child left. -/
def find (p : InternalPage) (key : Int) : Int :=
  let index := p.binarySearch key
  if index = 0 then p.pageIds.getD 0 0
  else p.pageIds.getD (index - 1).toNat 0

/-- `Split(new_internal_page, v)`: move the pairs at physical slots
`min_size .. max_size - 1` into the fresh right sibling (recording the
moved child ids), shrink this page to `min_size`, and return the key at
slot `min_size` of the pre-split page (the source reads the physically
retained slot after shrinking). -/
def split (p newPage : InternalPage) : InternalPage × InternalPage × Int × List Int :=
  let movedKeys := (p.keys.drop p.minSize).take (p.maxSize - p.minSize)
  let movedIds := (p.pageIds.drop p.minSize).take (p.maxSize - p.minSize)
  let right := { newPage with keys := newPage.keys ++ movedKeys,
                              pageIds := newPage.pageIds ++ movedIds }
  let left := { p with keys := p.keys.take p.minSize, pageIds := p.pageIds.take p.minSize }
  (left, right, p.keys.getD p.minSize 0, movedIds)

end InternalPage

/-! ## ARC replacer (`buffer/arc_replacer.cpp`) -/

/-- `ArcStatus` of a tracked frame or ghost entry. -/
inductive ArcStatus where
  | mru | mfu | mruGhost | mfuGhost
  deriving Repr, DecidableEq

/-- `FrameStatus`: the shared per-frame record of the replacer. -/
structure FrameStatus where
  pageId : Int
  frameId : Nat
  evictable : Bool
  arcStatus : ArcStatus
  deriving Repr, DecidableEq

/-- Replace the binding of `k` (or add one) in an association list:
`std::unordered_map::operator[]` followed by assignment. -/
def alInsert {α β : Type} [BEq α] (l : List (α × β)) (k : α) (v : β) :
    List (α × β) :=
  if l.any (fun p => p.1 == k) then
    l.map (fun p => if p.1 == k then (k, v) else p)
  else (k, v) :: l

/-- Shallow embedding of `ArcReplacer`.  The lists have the most recent
entry first (C++ `begin()`); the iterator maps of the source are position
caches with no semantic content and are represented by list membership. -/
structure ArcReplacer where
  replacerSize : Nat
  mru : List Nat := []
  mfu : List Nat := []
  mruGhost : List Int := []
  mfuGhost : List Int := []
  alive : List (Nat × FrameStatus) := []
  ghost : List (Int × FrameStatus) := []
  mruTargetSize : Nat := 0
  currSize : Nat := 0
  deriving Repr, DecidableEq

namespace ArcReplacer

/-- The `find_from_list_tail` lambda of `Evict`: scan from the LRU end for
a frame that is alive and evictable. -/
def findFromListTail (r : ArcReplacer) (lst : List Nat) : Option Nat :=
  lst.reverse.find? (fun fid =>
    match r.alive.lookup fid with
    | some st => st.evictable
    | none => false)

/-- The `try_pick` lambda of `Evict`: prefer MFU iff the resident MRU list
is strictly shorter than the target size. -/
def tryPick (r : ArcReplacer) : Option Nat :=
  if r.mru.length < r.mruTargetSize then
    match r.findFromListTail r.mfu with
    | some f => some f
    | none => r.findFromListTail r.mru
  else
    match r.findFromListTail r.mru with
    | some f => some f
    | none => r.findFromListTail r.mfu

/-- The shared tail of `Evict` after the victim's resident list has been
updated: move the status record into the ghost map with the matching ghost
status, maintain `curr_size_`, clear the evictable flag, and drop the
frame from the alive map. -/
def evictFinish (r : ArcReplacer) (result : Nat) (st : FrameStatus) : ArcReplacer :=
  let newStatus := if st.arcStatus = ArcStatus.mfu then ArcStatus.mfuGhost
                   else ArcStatus.mruGhost
  { r with
    ghost := alInsert r.ghost st.pageId { st with arcStatus := newStatus, evictable := false },
    currSize := if st.evictable then r.currSize - 1 else r.currSize,
    alive := r.alive.filter (fun p => p.1 ≠ result) }

/-- `Evict()`: the victim (if any) and the updated replacer.  The source's
"double check" loop re-reads the evictable flag of the candidate under the
same latch, so it always passes on the first pick (`tryPick_evictable`
below); the loop is therefore a single pick. -/
def evict (r : ArcReplacer) : Option Nat × ArcReplacer :=
  match r.tryPick with
  | none => (none, r)
  | some result =>
    match r.alive.lookup result with
    | none => (none, r)  -- the source would dereference a null shared_ptr; unreachable
    | some st =>
      match st.arcStatus with
      | ArcStatus.mruGhost => (none, r)
      | ArcStatus.mfuGhost => (none, r)
      | ArcStatus.mru =>
        let r1 :=
          if r.mru.contains result then
            { r with mruGhost := st.pageId :: r.mruGhost, mru := r.mru.erase result }
          else r
        (some result, evictFinish r1 result st)
      | ArcStatus.mfu =>
        let r1 :=
          if r.mfu.contains result then
            { r with mfuGhost := st.pageId :: r.mfuGhost, mfu := r.mfu.erase result }
          else r
        (some result, evictFinish r1 result st)

/-- `SetEvictable(frame_id, set_evictable)`. -/
def setEvictable (fid : Nat) (b : Bool) (r : ArcReplacer) : ArcReplacer :=
  match r.alive.lookup fid with
  | none => r
  | some st =>
    { r with
      alive := r.alive.map (fun p => if p.1 = fid then (fid, { st with evictable := b }) else p),
      currSize := if st.evictable ∧ ¬b then r.currSize - 1
                  else if ¬st.evictable ∧ b then r.currSize + 1
                  else r.currSize }

end ArcReplacer

/-! ## Frame headers, buffer pool manager and page guards
(`buffer/buffer_pool_manager.cpp`, `storage/page/page_guard.cpp`) -/

/-- A disk request issued through the disk scheduler, or a deallocation. -/
inductive DiskOp where
  | write (pageId : Int) (data : List Nat)
  | deallocate (pageId : Int)
  deriving Repr, DecidableEq

/-- `DiskOp.write`? -/
def DiskOp.isWrite : DiskOp → Bool
  | DiskOp.write _ _ => true
  | _ => false

/-- Shallow embedding of `FrameHeader`: frame id, cached page id, pin
count, dirty bit and the page bytes. -/
structure FrameHeader where
  frameId : Nat
  pageId : Int
  pinCount : Nat
  isDirty : Bool
  data : List Nat
  deriving Repr, DecidableEq

/-- `FrameHeader::Reset()`: zero the bytes, store a pin count of 0 and
clear the dirty bit (the cached page id is untouched by `Reset` itself). -/
def FrameHeader.reset (f : FrameHeader) : FrameHeader :=
  { f with data := List.replicate f.data.length 0, pinCount := 0, isDirty := false }

/-- Apply `u` to the first frame with the given id: the
`for (...) { if (frame_id matches) { ...; break; } }` loops of the pool. -/
def updateFirstFrame (u : FrameHeader → FrameHeader) (fid : Nat) :
    List FrameHeader → List FrameHeader
  | [] => []
  | f :: rest =>
    if f.frameId = fid then u f :: rest else f :: updateFirstFrame u fid rest

/-- Combined pool state: the `BufferPoolManager` fields relevant to the
claims plus the replacer it owns. -/
structure PoolState where
  frames : List FrameHeader := []
  pageTable : List (Int × Nat) := []
  freeFrames : List Nat := []
  replacer : ArcReplacer := { replacerSize := 0 }
  deriving Repr, DecidableEq

namespace PoolState

/-- The frame the page table maps `pid` to, scanned like the source's
`for (auto &item : frames_)` loops. -/
def findFrame (s : PoolState) (fid : Nat) : Option FrameHeader :=
  s.frames.find? (fun f => f.frameId = fid)

/-- `BufferPoolManager::DeletePage(page_id)`: result, new state, and disk
operations issued. -/
def deletePage (pid : Int) (s : PoolState) : Bool × PoolState × List DiskOp :=
  match s.pageTable.lookup pid with
  | none => (true, s, [])
  | some fid =>
    match s.findFrame fid with
    | some fr =>
      if fr.pinCount ≠ 0 then (false, s, [])
      else
        (true,
          { s with
            frames := updateFirstFrame (fun f => { f.reset with pageId := invalidPageId }) fid s.frames,
            freeFrames := fid :: s.freeFrames,
            pageTable := s.pageTable.filter (fun p => p.1 ≠ pid) },
          [DiskOp.deallocate pid])
    | none =>
      -- the frame scan finds nothing; the source still erases the mapping
      -- and asks the disk layer to deallocate
      (true, { s with pageTable := s.pageTable.filter (fun p => p.1 ≠ pid) },
        [DiskOp.deallocate pid])

/-- `BufferPoolManager::FlushPage(page_id)` (the latching variant): write
the frame's bytes through the disk scheduler, then `Reset` the frame; the
page stays in the page table. -/
def flushPage (pid : Int) (s : PoolState) : Bool × PoolState × List DiskOp :=
  match s.pageTable.lookup pid with
  | none => (false, s, [])
  | some fid =>
    match s.findFrame fid with
    | none => (true, s, [])  -- the source would dereference a null frame pointer
    | some fr =>
      (true, { s with frames := updateFirstFrame FrameHeader.reset fid s.frames },
        [DiskOp.write pid fr.data])

/-- `BufferPoolManager::FlushPageUnsafe(page_id)`: like `FlushPage` but
only writes and resets when the frame is dirty. -/
def flushPageUnsafe (pid : Int) (s : PoolState) : Bool × PoolState × List DiskOp :=
  match s.pageTable.lookup pid with
  | none => (false, s, [])
  | some fid =>
    let isDirty := match s.findFrame fid with
      | some fr => fr.isDirty
      | none => false
    if isDirty then
      match s.findFrame fid with
      | some fr =>
        (true, { s with frames := updateFirstFrame FrameHeader.reset fid s.frames },
          [DiskOp.write pid fr.data])
      | none => (true, s, [])
    else (true, s, [])

/-- The reverse page-table scan of `FlushAllPages`: the page id mapped to
a frame (the source reads an uninitialized local, modelled by `0`, when
the scan misses). -/
def pageOfFrame (s : PoolState) (fid : Nat) : Option Int :=
  (s.pageTable.find? (fun p => p.2 = fid)).map (fun p => p.1)

/-- `BufferPoolManager::FlushAllPages()`: write and `Reset` every dirty
frame (the page table is not modified). -/
def flushAllPages (s : PoolState) : PoolState × List DiskOp :=
  ({ s with frames := s.frames.map (fun f => if f.isDirty then f.reset else f) },
    s.frames.filterMap (fun f =>
      if f.isDirty then some (DiskOp.write ((s.pageOfFrame f.frameId).getD 0) f.data)
      else none))

/-- `BufferPoolManager::FlushAllPagesUnsafe()`: identical body to
`FlushAllPages` (the two differ only in pool-latch acquisition). -/
def flushAllPagesUnsafe (s : PoolState) : PoolState × List DiskOp :=
  ({ s with frames := s.frames.map (fun f => if f.isDirty then f.reset else f) },
    s.frames.filterMap (fun f =>
      if f.isDirty then some (DiskOp.write ((s.pageOfFrame f.frameId).getD 0) f.data)
      else none))

end PoolState

/-- Shallow embedding of `ReadPageGuard`: the owned pointers are modelled
by their presence (a moved-from `shared_ptr` is null), the frame pointer
by the frame id it designates. -/
structure ReadPageGuard where
  pageId : Int := -1
  frame : Option Nat := none
  hasReplacer : Bool := false
  hasBpmLatch : Bool := false
  hasDiskSched : Bool := false
  lockOwns : Bool := false
  isValid : Bool := false
  deriving Repr, DecidableEq

/-- Shallow embedding of `WritePageGuard` (same resources). -/
structure WritePageGuard where
  pageId : Int := -1
  frame : Option Nat := none
  hasReplacer : Bool := false
  hasBpmLatch : Bool := false
  hasDiskSched : Bool := false
  lockOwns : Bool := false
  isValid : Bool := false
  deriving Repr, DecidableEq

/-- `ReadPageGuard::Drop()`: release the latch, then (under the pool latch
when available -- both branches of the source perform the same updates)
decrement the frame's pin count if it is nonzero and mark the frame
evictable, unconditionally.  No disk request is issued. -/
def readGuardDrop (g : ReadPageGuard) (s : PoolState) : ReadPageGuard × PoolState :=
  let s1 := match g.frame with
    | none => s
    | some fid =>
      { s with
        frames := updateFirstFrame
          (fun f => if f.pinCount ≠ 0 then { f with pinCount := f.pinCount - 1 } else f)
          fid s.frames,
        replacer := ArcReplacer.setEvictable fid true s.replacer }
  ({ g with lockOwns := false, isValid := false }, s1)

/-- `WritePageGuard::Drop()`: like the read variant, but additionally sets
the frame's dirty bit.  No disk request is issued; the returned event list
is the (empty) sequence of requests handed to the disk scheduler. -/
def writeGuardDrop (g : WritePageGuard) (s : PoolState) :
    WritePageGuard × PoolState × List DiskOp :=
  let s1 := match g.frame with
    | none => s
    | some fid =>
      { s with
        frames := updateFirstFrame
          (fun f =>
            { f with pinCount := if f.pinCount ≠ 0 then f.pinCount - 1 else f.pinCount,
                     isDirty := true })
          fid s.frames,
        replacer := ArcReplacer.setEvictable fid true s.replacer }
  ({ g with lockOwns := false, isValid := false }, s1, [])

/-- `WritePageGuard::Flush()`: `IsDirty()` traps (`none`) on an invalid
guard; on a dirty frame a write of the frame's bytes goes through the disk
scheduler and the dirty bit is cleared. -/
def writeGuardFlush (g : WritePageGuard) (s : PoolState) :
    Option (PoolState × List DiskOp) :=
  if ¬g.isValid then none
  else
    match g.frame with
    | none => none  -- null frame pointer: the source would crash
    | some fid =>
      match s.findFrame fid with
      | none => none
      | some fr =>
        if fr.isDirty then
          some ({ s with frames := updateFirstFrame (fun f => { f with isDirty := false }) fid s.frames },
            [DiskOp.write g.pageId fr.data])
        else some (s, [])

/-- `WritePageGuard::GetPageId()`: `BUSTUB_ENSURE(is_valid_, ...)` traps
(`none`) on an invalid guard. -/
def WritePageGuard.getPageId (g : WritePageGuard) : Option Int :=
  if g.isValid then some g.pageId else none

/-- `WritePageGuard::operator=(WritePageGuard &&that)` for two distinct
guards (the self-assignment branch compares object addresses): drop the
assignee's resources, move all pointers and the lock, and copy `page_id_`
and `is_valid_` -- the moved-from guard's own `page_id_` and `is_valid_`
are left untouched.  Returns (new `this`, moved-from `that`, pool). -/
def writeGuardMoveAssign (this that : WritePageGuard) (s : PoolState) :
    WritePageGuard × WritePageGuard × PoolState :=
  let dropped := writeGuardDrop this s
  let newThis : WritePageGuard :=
    { pageId := that.pageId, frame := that.frame, hasReplacer := that.hasReplacer,
      hasBpmLatch := that.hasBpmLatch, hasDiskSched := that.hasDiskSched,
      lockOwns := that.lockOwns, isValid := that.isValid }
  let newThat : WritePageGuard :=
    { that with frame := none, hasReplacer := false, hasBpmLatch := false,
                hasDiskSched := false, lockOwns := false }
  (newThis, newThat, dropped.2.1)

/-! ## Tree iterator (`storage/index/index_iterator.cpp`)

The pool is abstracted to a finite map from page ids to leaf pages; the
iterator state is the `(page_id_, index_)` pair (the guard and cached
pointer of the source always designate the page with id `page_id_`). -/

/-- The pool view an iterator walks: page id to leaf page. -/
def LeafPool := List (Int × LeafPage)

/-- Iterator state: `page_id_` and `index_` (the end sentinel is
`(-1, -1)`). -/
structure Iterator where
  pageId : Int
  index : Int
  deriving Repr, DecidableEq

/-- The tombstone-skipping loops of the iterator
(`while (index_ < page_->GetSize() && page_->IsTombstone(index_)) index_++`):
first slot `≥ i` that is not tombstoned, or the page size. -/
def skipTombsGo (l : LeafPage) : Nat → Nat → Nat
  | 0, i => i
  | fuel + 1, i => if i < l.size ∧ l.isTombstone i then skipTombsGo l fuel (i + 1) else i

/-- Run the skipping loop from slot `i` (the loop advances at most
`size - i` times). -/
def skipTombs (l : LeafPage) (i : Nat) : Nat := skipTombsGo l (l.size - i) i

/-- The leaf-crossing loop shared by the iterator constructor and
`operator++` (`while (index_ >= page_->GetSize()) { ... }`), entered after
the in-page skip: follow `next_page_id` (skipping each new page's leading
tombstones) until a live slot is found or the chain ends with the sentinel.
One fuel unit is spent per leaf crossing; `none` is fuel exhaustion, and
also an absent page id, for which the real pool would read unspecified
disk bytes. -/
def advanceLoop (pages : LeafPool) : Nat → Int → LeafPage → Nat → Option Iterator
  | 0, _, _, _ => none
  | fuel + 1, pid, l, idx =>
    if idx < l.size then some ⟨pid, (idx : Int)⟩
    else
      if l.nextPageId = invalidPageId then some ⟨invalidPageId, -1⟩
      else
        match pages.lookup l.nextPageId with
        | none => none
        | some l' => advanceLoop pages fuel l.nextPageId l' (skipTombs l' 0)

/-- The iterator constructor `IndexIterator(bpm, page_id)`: the sentinel
for an invalid page id, otherwise start at slot 0 of the leaf, skipping
leading tombstones and crossing to further leaves as needed. -/
def mkIterator (pages : LeafPool) (fuel : Nat) (pid : Int) : Option Iterator :=
  if pid = invalidPageId then some ⟨pid, -1⟩
  else
    match pages.lookup pid with
    | none => none
    | some l => advanceLoop pages fuel pid l (skipTombs l 0)

/-- `IndexIterator::operator++`: a no-op on the end sentinel, otherwise
advance the slot, skip tombstones, and cross leaves. -/
def incr (pages : LeafPool) (fuel : Nat) (it : Iterator) : Option Iterator :=
  if it.pageId = invalidPageId ∨ it.index = -1 then some it
  else
    match pages.lookup it.pageId with
    | none => none
    | some l => advanceLoop pages fuel it.pageId l (skipTombs l (it.index.toNat + 1))

/-- `IndexIterator::operator==`: equality of `(page_id_, index_)`. -/
def iterEq (a b : Iterator) : Bool :=
  a.pageId == b.pageId && a.index == b.index

/-- The non-tombstoned slots of a leaf, in order (specification side). -/
def liveSlots (l : LeafPage) : List Nat :=
  (List.range l.size).filter (fun i => l.isTombstone i = false)

/-- Specification-side reading of the claim for the iterator: the next
non-tombstoned slot at index `≥ start` of the leaf `pid`, else the first
live slot of the following leaves (through `next_page_id`), else the end
sentinel when no next leaf exists.  Follows the claim's words; compared
with the source translation in the C8 theorem. -/
def claimNextLive (pages : LeafPool) : Nat → Int → Nat → Option Iterator
  | 0, _, _ => none
  | fuel + 1, pid, start =>
    match pages.lookup pid with
    | none => none
    | some l =>
      match (liveSlots l).find? (fun j => decide (start ≤ j)) with
      | some j => some ⟨pid, (j : Int)⟩
      | none =>
        if l.nextPageId = invalidPageId then some ⟨invalidPageId, -1⟩
        else claimNextLive pages fuel l.nextPageId 0

/-! ## The B+ tree (`storage/index/b_plus_tree.cpp`)

The buffer pool below the tree is abstracted to a map from page ids to
typed page contents (the tree reaches pages only through `ReadPage`/
`WritePage` guards on page ids; pin counts and latches have no effect on
the sequential key-level behaviour).  Acquiring `INVALID_PAGE_ID` or a
deallocated/absent page id is an error result: the real pool would then
schedule a disk read of an invalid or deallocated page and hand the tree
unspecified bytes.  Unbounded loops and recursion take fuel; every
verified run carries enough fuel. -/

/-- A page as the tree sees it: the header page stores only
`root_page_id_`; `zero` is a freshly allocated, still zero-filled page. -/
inductive Page where
  | leaf (l : LeafPage)
  | internal (p : InternalPage)
  | header (rootPageId : Int)
  | zero
  deriving Repr, DecidableEq

/-- Error outcomes of a modelled tree operation. -/
inductive TreeErr where
  | invalidPageAccess (pid : Int)
  | typeConfusion
  | outOfFuel
  deriving Repr, DecidableEq

/-- State of the tree system: the page map, the tree's header page id and
the pool's monotonic page-id counter. -/
structure TreeState where
  pages : List (Int × Page)
  headerPageId : Int
  nextPageId : Int
  deriving Repr, DecidableEq

/-- Construction parameters of `BPlusTree`: `leaf_max_size_`,
`internal_max_size_` and the template constant `LEAF_PAGE_TOMB_CNT`. -/
structure TreeConfig where
  leafMax : Nat
  internalMax : Nat
  tombCap : Nat
  deriving Repr, DecidableEq

/-- The tree operation monad: state plus error. -/
abbrev TreeM := StateT TreeState (Except TreeErr)

/-- The state after the `BPlusTree` constructor: the pool allocated page 0
for the header and the constructor stored `INVALID_PAGE_ID` in it. -/
def emptyTree : TreeState :=
  { pages := [(0, Page.header invalidPageId)], headerPageId := 0, nextPageId := 1 }

/-- `ReadPage`/`WritePage` acquisition of page `pid`. -/
def getPage (pid : Int) : TreeM Page := do
  if pid = invalidPageId then throw (TreeErr.invalidPageAccess pid)
  else
    match (← get).pages.lookup pid with
    | some pg => pure pg
    | none => throw (TreeErr.invalidPageAccess pid)

/-- Store back the (guard-mutated) contents of page `pid`. -/
def setPage (pid : Int) (pg : Page) : TreeM Unit :=
  modify fun st => { st with pages := alInsert st.pages pid pg }

/-- `bpm_->NewPage()`: allocate the next page id with zeroed contents (the
model's pool does not run out of frames). -/
def newPageM : TreeM Int := do
  let st ← get
  let pid := st.nextPageId
  set { st with nextPageId := pid + 1, pages := alInsert st.pages pid Page.zero }
  pure pid

/-- `bpm_->DeletePage(pid)` as invoked (unpinned) by the tree: the page
leaves the pool and its storage is deallocated. -/
def deletePageTree (pid : Int) : TreeM Unit :=
  modify fun st => { st with pages := st.pages.filter (fun p => p.1 ≠ pid) }

/-- `As<BPlusTreePage>()->IsLeafPage()`. -/
def pageIsLeaf : Page → Bool
  | Page.leaf _ => true
  | _ => false

/-- `As<B_PLUS_TREE_LEAF_PAGE_TYPE>()` (a wrong-typed downcast would read
reinterpreted bytes in the source). -/
def asLeaf : Page → TreeM LeafPage
  | Page.leaf l => pure l
  | _ => throw TreeErr.typeConfusion

/-- `As<BPlusTreeInternalPage<...>>()`. -/
def asInternal : Page → TreeM InternalPage
  | Page.internal p => pure p
  | _ => throw TreeErr.typeConfusion

/-- `As<BPlusTreeHeaderPage>()->root_page_id_`. -/
def asHeader : Page → TreeM Int
  | Page.header r => pure r
  | _ => throw TreeErr.typeConfusion

/-- `GetFatherPageId()` through the shared `BPlusTreePage` base. -/
def pageFatherId : Page → TreeM Int
  | Page.leaf l => pure l.fatherPageId
  | Page.internal p => pure p.fatherPageId
  | _ => throw TreeErr.typeConfusion

/-- `AsMut<BPlusTreePage>()->SetFatherPageId(fid)`. -/
def setPageFather (pid : Int) (fid : Int) : TreeM Unit := do
  match ← getPage pid with
  | Page.leaf l => setPage pid (Page.leaf { l with fatherPageId := fid })
  | Page.internal p => setPage pid (Page.internal { p with fatherPageId := fid })
  | _ => throw TreeErr.typeConfusion

/-- Insertion sort of child page ids: `std::sort` ascending in `PushUp`. -/
def sortedInsert (x : Int) : List Int → List Int
  | [] => [x]
  | y :: ys => if x ≤ y then x :: y :: ys else y :: sortedInsert x ys

/-- Ascending sort (`std::sort(moved_children.begin(), ...)`). -/
def sortInts : List Int → List Int
  | [] => []
  | x :: xs => sortedInsert x (sortInts xs)

/-- `BPlusTree::UpdateFather(first_key, second_key, write_guard)`: walk up
from the node `nodePid`, rewriting the separator for `first_key` (falling
back to locating the child by page id), recursing while the slot is 0. -/
def updateFather : Nat → Int → Int → Int → TreeM Unit
  | 0, _, _, _ => throw TreeErr.outOfFuel
  | fuel + 1, firstKey, secondKey, nodePid => do
    let pg ← getPage nodePid
    let fatherId ← pageFatherId pg
    if fatherId = invalidPageId then pure ()
    else do
      let father ← asInternal (← getPage fatherId)
      let index ← match father.matchKey firstKey with
        | some i => pure (some i)
        | none => pure (father.valueIndexForPid nodePid)
      match index with
      | none => pure ()
      | some i => do
        setPage fatherId (Page.internal (father.updateKeyAt i (some secondKey)))
        if i = 0 then updateFather fuel firstKey secondKey fatherId else pure ()

/-- The descent loop of `LocateKey` (with its page-type and page-id
consistency checks, which return `-1` on inconsistent data). -/
def locateLoop (key : Int) : Nat → Int → Bool → TreeM Int
  | 0, _, _ => throw TreeErr.outOfFuel
  | fuel + 1, tempId, isLeaf =>
    if isLeaf then pure tempId
    else do
      let pg ← getPage tempId
      if pageIsLeaf pg then pure invalidPageId
      else do
        let node ← asInternal pg
        if node.pageId ≠ tempId then pure invalidPageId
        else do
          let next := node.find key
          if next = invalidPageId then pure invalidPageId
          else do
            let npg ← getPage next
            locateLoop key fuel next (pageIsLeaf npg)

/-- `BPlusTree::LocateKey(key, header_page)`: the leaf page id the key
routes to (or `-1`). -/
def locateKey (fuel : Nat) (key : Int) (rootPid : Int) : TreeM Int := do
  let rootPg ← getPage rootPid
  if ¬pageIsLeaf rootPg then do
    let root ← asInternal rootPg
    let tempId := root.find key
    if tempId = invalidPageId then pure invalidPageId
    else do
      let tpg ← getPage tempId
      locateLoop key fuel tempId (pageIsLeaf tpg)
  else pure rootPid

/-- `BPlusTree::GetValue(key, result)`: whether the key was found, and the
values pushed into `result`. -/
def getValueT (cfg : TreeConfig) (fuel : Nat) (key : Int) : TreeM (Bool × List Nat) := do
  let st ← get
  let rootId ← asHeader (← getPage st.headerPageId)
  if rootId = invalidPageId then pure (false, [])
  else do
    let pid ← locateKey fuel key rootId
    if pid = invalidPageId then pure (false, [])
    else do
      let leaf ← asLeaf (← getPage pid)
      let res := leaf.findAndPush cfg.tombCap key
      pure (res ≠ [], res)

/-- `BPlusTree::PushUp(write_guard)`: split a full leaf or internal page,
creating a new root or inserting the separator into the parent and
recursing. -/
def pushUp (cfg : TreeConfig) : Nat → Int → TreeM Unit
  | 0, _ => throw TreeErr.outOfFuel
  | fuel + 1, pid => do
    let pg ← getPage pid
    if pageIsLeaf pg then do
      let page ← asLeaf pg
      if page.maxSize ≤ page.size then do
        let newId ← newPageM
        let newLeaf := { LeafPage.init cfg.leafMax with pageId := newId }
        let (left, right) := page.split newLeaf
        setPage pid (Page.leaf left)
        setPage newId (Page.leaf right)
        if right.nextPageId ≠ invalidPageId then do
          let nl ← asLeaf (← getPage right.nextPageId)
          setPage right.nextPageId (Page.leaf { nl with prePageId := right.pageId })
        if left.fatherPageId = invalidPageId then do
          -- no parent: allocate a new internal root
          let internalId ← newPageM
          let left' := { left with fatherPageId := internalId }
          let right' := { right with fatherPageId := internalId }
          setPage pid (Page.leaf left')
          setPage newId (Page.leaf right')
          let st ← get
          let _ ← asHeader (← getPage st.headerPageId)
          setPage st.headerPageId (Page.header internalId)
          let ipage := { InternalPage.init cfg.internalMax with pageId := internalId }
          setPage internalId (Page.internal
            (ipage.firstInsert left'.getMinKey right'.getMinKey pid newId))
        else do
          -- parent exists: insert the right sibling's first key into it
          let rightMinKey := right.getMinKey
          let father ← asInternal (← getPage left.fatherPageId)
          let father' := (father.insertKeyValue rightMinKey newId).2
          setPage left.fatherPageId (Page.internal father')
          let rl ← asLeaf (← getPage newId)
          setPage newId (Page.leaf { rl with fatherPageId := father'.pageId })
          pushUp cfg fuel left.fatherPageId
      else pure ()
    else do
      let page ← asInternal pg
      if cfg.internalMax = page.size then do
        let newId ← newPageM
        let new0 := { InternalPage.init cfg.internalMax with pageId := newId }
        let (left, right, _, movedChildren) := page.split new0
        setPage pid (Page.internal left)
        setPage newId (Page.internal right)
        let parentId := left.fatherPageId
        -- rewrite the moved children's father pointers in ascending id order
        for child in sortInts movedChildren do
          setPageFather child newId
        if parentId = invalidPageId then do
          let newParentId ← newPageM
          let parent0 := { InternalPage.init cfg.internalMax with pageId := newParentId }
          let firstI ← asInternal (← getPage pid)
          setPage pid (Page.internal { firstI with fatherPageId := newParentId })
          let leftMin := firstI.getMinKey
          let secondI ← asInternal (← getPage newId)
          setPage newId (Page.internal { secondI with fatherPageId := newParentId })
          let rightMin := secondI.getMinKey
          setPage newParentId (Page.internal (parent0.firstInsert leftMin rightMin pid newId))
          let st ← get
          let _ ← asHeader (← getPage st.headerPageId)
          setPage st.headerPageId (Page.header newParentId)
        else do
          let parent ← asInternal (← getPage parentId)
          let secondI ← asInternal (← getPage newId)
          setPage newId (Page.internal { secondI with fatherPageId := parent.pageId })
          let rightMin := secondI.getMinKey
          let parent' := (parent.insertKeyValue rightMin newId).2
          setPage parentId (Page.internal parent')
          pushUp cfg fuel parentId
      else pure ()

/-- The read-guarded descent loop of `Insert` (via `AccurateFind`; an
invalid child id makes the whole insertion return `false`). -/
def insertDescend (key : Int) : Nat → Int → Bool → TreeM (Option Int)
  | 0, _, _ => throw TreeErr.outOfFuel
  | fuel + 1, tempId, isLeaf =>
    if isLeaf then pure (some tempId)
    else do
      let node ← asInternal (← getPage tempId)
      let next := node.accurateFind key
      if next = invalidPageId then pure none
      else do
        let npg ← getPage next
        insertDescend key fuel next (pageIsLeaf npg)

/-- `BPlusTree::Insert(key, value)`. -/
def insertT (cfg : TreeConfig) (fuel : Nat) (key : Int) (value : Nat) : TreeM Bool := do
  let hdrId := (← get).headerPageId
  let rootId0 ← asHeader (← getPage hdrId)
  -- empty tree: start a new root leaf
  if rootId0 = invalidPageId then do
    let pid ← newPageM
    setPage hdrId (Page.header pid)
    setPage pid (Page.leaf { LeafPage.init cfg.leafMax with pageId := pid })
  -- `header_page_read->root_page_id_` reads the (possibly updated) header frame
  let rootId ← asHeader (← getPage hdrId)
  let rootPg ← getPage rootId
  if pageIsLeaf rootPg then do
    let root ← asLeaf (← getPage rootId)
    let (ok, root') := root.insertKeyValue cfg.tombCap key value
    setPage rootId (Page.leaf root')
    if ¬ok then pure false
    else do
      pushUp cfg fuel rootId
      pure true
  else do
    let rootI ← asInternal rootPg
    let tempId := rootI.accurateFind key
    let tpg ← getPage tempId
    let found ← insertDescend key fuel tempId (pageIsLeaf tpg)
    match found with
    | none => pure false
    | some leafId => do
      let leaf ← asLeaf (← getPage leafId)
      let beginKey := if 0 < leaf.size then leaf.getMinKey else leaf.beforeFirstKey
      let (inserted, leaf') := leaf.insertKeyValue cfg.tombCap key value
      setPage leafId (Page.leaf leaf')
      if ¬inserted then pure false
      else do
        if leaf'.isBegin then do
          updateFather fuel beginKey leaf'.getMinKey leafId
          let l1 ← asLeaf (← getPage leafId)
          setPage leafId (Page.leaf { l1 with isBegin := false })
          pushUp cfg fuel leafId
        else pushUp cfg fuel leafId
        pure true

/-- `BPlusTree::DeepDeleteOrUpdate(key, update_key, internal_write,
is_update)`: delete or update the ancestors' separators for `key`,
recursing while the touched slot is 0. -/
def deepDeleteOrUpdate : Nat → Int → Option Int → Int → Bool → TreeM Unit
  | 0, _, _, _, _ => throw TreeErr.outOfFuel
  | fuel + 1, key, updateKey, nodePid, isUpdate => do
    let node ← asInternal (← getPage nodePid)
    let fatherId := node.fatherPageId
    if fatherId = invalidPageId then pure ()
    else do
      let father ← asInternal (← getPage fatherId)
      match father.matchKey key with
      | none => pure ()
      | some fi =>
        if isUpdate then do
          setPage fatherId (Page.internal (father.updateKeyAt fi updateKey))
          if fi = 0 then deepDeleteOrUpdate fuel key updateKey fatherId true else pure ()
        else do
          let father1 := father.deletePair fi
          setPage fatherId (Page.internal father1)
          if fi = 0 then
            if father1.size ≠ 0 then
              deepDeleteOrUpdate fuel key (some father1.getMinKey) fatherId true
            else deepDeleteOrUpdate fuel key updateKey fatherId false
          else pure ()

/-- `BPlusTree::DeepUpdate(leaf_write, temp_key)`: push the leaf's new
minimum (or its removal) into the parent, recursing upward for slot 0. -/
def deepUpdate (fuel : Nat) (leafPid : Int) (tempKey : Int) : TreeM Unit := do
  let leaf ← asLeaf (← getPage leafPid)
  if leaf.fatherPageId ≠ invalidPageId then do
    if leaf.isUpdate ∧ ¬leaf.isEmpty then do
      let fid := leaf.fatherPageId
      let father ← asInternal (← getPage fid)
      match father.matchKey tempKey with
      | some 0 => do
          setPage fid (Page.internal (father.updateKeyAt 0 (some leaf.getMinKey)))
          deepDeleteOrUpdate fuel tempKey (some leaf.getMinKey) fid true
      | some fi =>
          setPage fid (Page.internal (father.updateKeyAt fi (some leaf.getMinKey)))
      | none => pure ()  -- `UpdateKey(-1, ...)`: out-of-bounds write in the source
      let l1 ← asLeaf (← getPage leafPid)
      setPage leafPid (Page.leaf { l1 with isUpdate := false })
    let l2 ← asLeaf (← getPage leafPid)
    if l2.isEmpty then do
      let fid := l2.fatherPageId
      let father ← asInternal (← getPage fid)
      match father.matchKey tempKey with
      | some 0 => do
          let father1 := father.deletePair 0
          setPage fid (Page.internal father1)
          if father1.size ≠ 0 then
            deepDeleteOrUpdate fuel tempKey (some father1.getMinKey) fid true
          else deepDeleteOrUpdate fuel tempKey none fid false
      | some fi => setPage fid (Page.internal (father.deletePair fi))
      | none => pure ()  -- `DeletePair(-1)`: out-of-bounds in the source
    else pure ()
  else pure ()

/-- `BPlusTree::IsDistributeForLeaf(leaf_write)`: the sibling with enough
surplus to donate (left first), or `INVALID_PAGE_ID`. -/
def isDistributeForLeaf (leaf : LeafPage) : TreeM Int := do
  let needNum : Int := (leaf.minSize : Int) - (leaf.size : Int)
  let pickLeft ←
    if leaf.prePageId ≠ invalidPageId then do
      let left ← asLeaf (← getPage leaf.prePageId)
      pure (decide ((left.size : Int) > (leaf.minSize : Int) + needNum - 1))
    else pure false
  if pickLeft then pure leaf.prePageId
  else
    if leaf.nextPageId ≠ invalidPageId then do
      let right ← asLeaf (← getPage leaf.nextPageId)
      if (right.size : Int) > (leaf.minSize : Int) + needNum - 1 then pure leaf.nextPageId
      else pure invalidPageId
    else pure invalidPageId

/-- `BPlusTree::DistributionClean(leaf_write)`: when the underflowing leaf
has a donor sibling, compact its tombstones and update the parent
separators; returns whether it did so. -/
def distributionClean (fuel : Nat) (leafPid : Int) : TreeM Bool := do
  let leaf ← asLeaf (← getPage leafPid)
  if leaf.size < leaf.minSize then do
    let donor ← isDistributeForLeaf leaf
    if donor ≠ invalidPageId then do
      let leaf1 := leaf.cleanupTombs
      setPage leafPid (Page.leaf leaf1)
      if leaf1.isUpdate ∧ ¬leaf1.isEmpty then do
        let fid := leaf1.fatherPageId
        let father ← asInternal (← getPage fid)
        match father.matchKey leaf1.beforeFirstKey with
        | some 0 => do
            setPage fid (Page.internal (father.updateKeyAt 0 (some leaf1.getMinKey)))
            deepDeleteOrUpdate fuel leaf1.beforeFirstKey (some leaf1.getMinKey) fid true
        | some fi => setPage fid (Page.internal (father.updateKeyAt fi (some leaf1.getMinKey)))
        | none => pure ()  -- `UpdateKey(-1, ...)`: out-of-bounds in the source
        let l1 ← asLeaf (← getPage leafPid)
        setPage leafPid (Page.leaf { l1 with isUpdate := false })
      else if leaf1.isEmpty then do
        let fid := leaf1.fatherPageId
        let father ← asInternal (← getPage fid)
        match father.matchKey leaf1.beforeFirstKey with
        | some 0 => do
            let father1 := father.deletePair 0
            setPage fid (Page.internal father1)
            if father1.size ≠ 0 then
              deepDeleteOrUpdate fuel leaf1.beforeFirstKey (some father1.getMinKey) fid true
            else deepDeleteOrUpdate fuel leaf1.beforeFirstKey none fid false
        | some fi => setPage fid (Page.internal (father.deletePair fi))
        | none => pure ()
        let l1 ← asLeaf (← getPage leafPid)
        setPage leafPid (Page.leaf { l1 with isUpdate := false })
      else pure ()
      pure true
    else pure false
  else pure false

/-- `BPlusTree::IsRightMerge(leaf_write)`: `some false` when the left
sibling shares the parent, `some true` for the right, `none` otherwise. -/
def isRightMerge (leaf : LeafPage) : TreeM (Option Bool) := do
  let retLeft ←
    if leaf.prePageId ≠ invalidPageId then do
      let left ← asLeaf (← getPage leaf.prePageId)
      pure (decide (left.fatherPageId = leaf.fatherPageId))
    else pure false
  if retLeft then pure (some false)
  else
    if leaf.nextPageId ≠ invalidPageId then do
      let right ← asLeaf (← getPage leaf.nextPageId)
      if leaf.fatherPageId = right.fatherPageId then pure (some true)
      else pure (none : Option Bool)
    else pure none

/-- `BPlusTree::RecursiveUpdateKeyForRedistribute(old_key, new_pair,
father_write)`: replace the separator for `old_key`, recursing into the
grandparent while slot 0 was touched. -/
def recursiveUpdateKeyForRedistribute : Nat → Int → Int × Int → Int → TreeM Unit
  | 0, _, _, _ => throw TreeErr.outOfFuel
  | fuel + 1, oldKey, newPair, fatherPid => do
    if fatherPid = invalidPageId then pure ()  -- null father pointer
    else do
      let father ← asInternal (← getPage fatherPid)
      match father.matchKey oldKey with
      | none => pure ()
      | some index => do
        let fatherOldMin := father.keyAt 0
        let father1 := father.updateKeyPair oldKey newPair
        setPage fatherPid (Page.internal father1)
        if index = 0 then do
          let gfid := father1.fatherPageId
          if gfid ≠ invalidPageId then do
            let _ ← asInternal (← getPage gfid)
            recursiveUpdateKeyForRedistribute fuel fatherOldMin
              (father1.keyAt 0, father1.pageId) gfid
          else pure ()
        else pure ()

/-- `BPlusTree::RedistributeForLeaf(page_id, leaf_write)`: move one entry
from the donor sibling and update the parent separators. -/
def redistributeForLeaf (fuel : Nat) (donorId leafPid : Int) : TreeM Unit := do
  let leaf ← asLeaf (← getPage leafPid)
  if donorId = leaf.prePageId then do
    let left ← asLeaf (← getPage donorId)
    let oldFirstKey := leaf.keys.getD 0 0
    let (back, left') := left.popBack
    setPage donorId (Page.leaf left')
    let leaf' := leaf.insertBegin back
    setPage leafPid (Page.leaf leaf')
    let fatherId := leaf'.fatherPageId
    if fatherId ≠ invalidPageId then do
      let newFirstKey := leaf'.keys.getD 0 0
      if newFirstKey ≠ oldFirstKey then do
        let _ ← asInternal (← getPage fatherId)
        recursiveUpdateKeyForRedistribute fuel oldFirstKey (newFirstKey, leaf'.pageId) fatherId
      else pure ()
    else pure ()
  else do
    let right ← asLeaf (← getPage donorId)
    let oldRightFirstKey := right.keys.getD 0 0
    let hasFirstKey := decide (0 < leaf.size)
    let receiverOldFirstKey := if hasFirstKey then leaf.keys.getD 0 0 else 0
    let (front, right') := right.popFront
    setPage donorId (Page.leaf right')
    let leaf' := leaf.insertBack front
    setPage leafPid (Page.leaf leaf')
    let fatherId := right'.fatherPageId
    if fatherId ≠ invalidPageId then do
      let _ ← asInternal (← getPage fatherId)
      recursiveUpdateKeyForRedistribute fuel oldRightFirstKey
        (right'.keys.getD 0 0, right'.pageId) fatherId
    else pure ()
    let receiverFatherId := leaf'.fatherPageId
    if receiverFatherId ≠ invalidPageId then do
      let newFirstKey := leaf'.keys.getD 0 0
      let needUpdate := if hasFirstKey then decide (newFirstKey ≠ receiverOldFirstKey) else true
      let receiverOldKey := if hasFirstKey then receiverOldFirstKey else leaf'.beforeFirstKey
      if needUpdate then do
        let _ ← asInternal (← getPage receiverFatherId)
        recursiveUpdateKeyForRedistribute fuel receiverOldKey (newFirstKey, leaf'.pageId)
          receiverFatherId
      else pure ()
    else pure ()

/-- `BPlusTree::MergeForLeaf(leaf_guard)`: absorb the left (preferred) or
right sibling sharing the parent into this leaf, relink the leaf list,
fix the parent entries and delete the absorbed page. -/
def mergeForLeaf (leafPid : Int) : TreeM Unit := do
  let leaf ← asLeaf (← getPage leafPid)
  let doneLeft ←
    if leaf.prePageId ≠ invalidPageId then do
      let left ← asLeaf (← getPage leaf.prePageId)
      if left.fatherPageId = leaf.fatherPageId then do
        let leftId := leaf.prePageId
        let leaf1 := { leaf with prePageId := left.prePageId }
        if left.prePageId ≠ invalidPageId then do
          let pre ← asLeaf (← getPage left.prePageId)
          setPage left.prePageId (Page.leaf { pre with nextPageId := leaf1.pageId })
        else pure ()
        let preSize := leaf1.size
        let preAbsorbFirstKey := if preSize ≠ 0 then some leaf1.getMinKey else none
        let (leaf2, left2, _) := leaf1.absorb left
        setPage leafPid (Page.leaf leaf2)
        setPage leftId (Page.leaf left2)
        -- `left_write->GetMinKey()` after `Absorb` reads the physically
        -- retained slot 0 of the cleared page: its pre-absorb first key
        let leftMinKey := left.getMinKey
        let fatherId := leaf2.fatherPageId
        let father ← asInternal (← getPage fatherId)
        let index := father.matchKey leftMinKey
        if preSize = 0 then do
          match index with
          | some i => setPage fatherId (Page.internal (father.updateChildAt i leaf2.pageId))
          | none => pure ()  -- `UpdateKey(-1, pid)`: out-of-bounds in the source
        else do
          let father1 := match father.matchKey ((preAbsorbFirstKey).getD 0) with
            | some t => father.deletePair t
            | none => father  -- `DeletePair(-1)`: out-of-bounds in the source
          -- the cached `index` refers to pre-deletion slots (source behaviour)
          let father2 := match index with
            | some i => father1.updateChildAt i leaf2.pageId
            | none => father1
          setPage fatherId (Page.internal father2)
        deletePageTree leftId
        pure true
      else pure false
    else pure false
  if doneLeft then pure ()
  else
    if leaf.nextPageId ≠ invalidPageId then do
      let rightId := leaf.nextPageId
      let right ← asLeaf (← getPage rightId)
      if leaf.fatherPageId = right.fatherPageId then do
        let leaf1 := { leaf with nextPageId := right.nextPageId }
        if right.nextPageId ≠ invalidPageId then do
          let rnext ← asLeaf (← getPage right.nextPageId)
          setPage right.nextPageId (Page.leaf { rnext with prePageId := leaf1.pageId })
        else pure ()
        let preIsEmpty := leaf1.size
        let (leaf2, right2, beginKey) := leaf1.absorb right
        setPage leafPid (Page.leaf leaf2)
        setPage rightId (Page.leaf right2)
        let fatherId := leaf2.fatherPageId
        let father ← asInternal (← getPage fatherId)
        if preIsEmpty ≠ 0 then do
          match father.matchKey beginKey with
          | some i => setPage fatherId (Page.internal (father.deletePair i))
          | none => pure ()
        else do
          match father.matchKey beginKey with
          | some i => setPage fatherId (Page.internal (father.updateChildAt i leaf2.pageId))
          | none => pure ()
        deletePageTree rightId
      else pure ()
    else pure ()

/-- `BPlusTree::IsDistributeForInternal(internal_write, to_size)`. -/
def isDistributeForInternal (node : InternalPage) (toSize : Int) : TreeM Int := do
  if node.fatherPageId = invalidPageId then pure invalidPageId
  else do
    let father ← asInternal (← getPage node.fatherPageId)
    let leftId := node.getPrePageId father
    let pickLeft ←
      if leftId ≠ invalidPageId then do
        let left ← asInternal (← getPage leftId)
        pure (decide ((left.size : Int) - (left.minSize : Int) ≥ toSize))
      else pure false
    if pickLeft then pure leftId
    else do
      let rightId := node.getNextPageId father
      if rightId ≠ invalidPageId then do
        let right ← asInternal (← getPage rightId)
        if (right.size : Int) - (right.minSize : Int) > toSize then pure rightId
        else pure invalidPageId
      else pure invalidPageId

/-- `BPlusTree::RedistributeForInternal(page_id, internal_write)`. -/
def redistributeForInternal (fuel : Nat) (donorId pid : Int) : TreeM Unit := do
  let node ← asInternal (← getPage pid)
  let fatherId := node.fatherPageId
  if fatherId = invalidPageId then pure ()
  else do
    let father ← asInternal (← getPage fatherId)
    if donorId = node.getPrePageId father then do
      let left ← asInternal (← getPage donorId)
      let oldFirstKey := node.keyAt 0
      let (back, left') := left.popBack
      setPage donorId (Page.internal left')
      let node' := node.insertBegin back
      setPage pid (Page.internal node')
      recursiveUpdateKeyForRedistribute fuel oldFirstKey (node'.keyAt 0, node'.pageId) fatherId
    else do
      let right ← asInternal (← getPage donorId)
      let oldRightFirstKey := right.keyAt 0
      let (front, right') := right.popFront
      setPage donorId (Page.internal right')
      let node' := node.insertBack front
      setPage pid (Page.internal node')
      recursiveUpdateKeyForRedistribute fuel oldRightFirstKey
        (right'.keyAt 0, right'.pageId) fatherId

/-- `BPlusTree::MergeForInternal(internal_guard)`. -/
def mergeForInternal (pid : Int) : TreeM Unit := do
  let node ← asInternal (← getPage pid)
  let fatherId := node.fatherPageId
  if fatherId = invalidPageId then pure ()
  else do
    let father ← asInternal (← getPage fatherId)
    let leftId := node.getPrePageId father
    let doneLeft ←
      if leftId ≠ invalidPageId then do
        let left ← asInternal (← getPage leftId)
        if left.fatherPageId = node.fatherPageId then do
          let (left2, node2, beginKey, v) := left.absorb node
          setPage leftId (Page.internal left2)
          setPage pid (Page.internal node2)
          for i in v do
            setPageFather i left2.pageId
          match father.matchKey beginKey with
          | some i => setPage fatherId (Page.internal (father.deletePair i))
          | none => pure ()  -- `DeletePair(-1)`: out-of-bounds in the source
          deletePageTree pid
          pure true
        else pure false
      else pure false
    if doneLeft then pure ()
    else do
      let rightId := node.getNextPageId father
      if rightId = invalidPageId then pure ()
      else do
        let right ← asInternal (← getPage rightId)
        if node.fatherPageId = right.fatherPageId then do
          let (node2, right2, beginKey, v) := node.absorb right
          setPage pid (Page.internal node2)
          setPage rightId (Page.internal right2)
          for i in v do
            setPageFather i node2.pageId
          match father.matchKey beginKey with
          | some i => setPage fatherId (Page.internal (father.deletePair i))
          | none => pure ()
          deletePageTree rightId
        else pure ()

/-- `BPlusTree::CheckForInternal(internal_guard)`: handle internal-page
underflow by redistribution, deletion of an empty page (promoting through
the header when it was the root), or merging, recursing upward. -/
def checkForInternal : Nat → Int → TreeM Unit
  | 0, _ => throw TreeErr.outOfFuel
  | fuel + 1, pid => do
    let node ← asInternal (← getPage pid)
    if node.size < node.minSize then do
      let toSize : Int := (node.minSize : Int) - (node.size : Int)
      let donor ← isDistributeForInternal node toSize
      if donor ≠ invalidPageId then redistributeForInternal fuel donor pid
      else
        if node.size = 0 then do
          let fatherId := node.fatherPageId
          if fatherId = invalidPageId then do
            let hdrId := (← get).headerPageId
            let _ ← asHeader (← getPage hdrId)
            setPage hdrId (Page.header invalidPageId)
            deletePageTree pid
          else do
            let _ ← getPage fatherId
            deletePageTree pid
            checkForInternal fuel fatherId
        else do
          mergeForInternal pid
          -- `internal_write->GetFatherPageId()` re-reads the page, which a
          -- left-merge just deleted (the source then reads a zeroed frame)
          let node1 ← asInternal (← getPage pid)
          let fatherId := node1.fatherPageId
          if fatherId = invalidPageId then pure ()
          else do
            let _ ← getPage fatherId
            checkForInternal fuel fatherId
    else pure ()

/-- `BPlusTree::CheckForLeaf(leaf_guard)`: handle leaf underflow by
redistribution or merge, then check the parent. -/
def checkForLeaf (fuel : Nat) (leafPid : Int) : TreeM Unit := do
  let leaf ← asLeaf (← getPage leafPid)
  if leaf.size < leaf.minSize then do
    let donor ← isDistributeForLeaf leaf
    if donor ≠ invalidPageId then redistributeForLeaf fuel donor leafPid
    else do
      mergeForLeaf leafPid
      let leaf1 ← asLeaf (← getPage leafPid)
      let fatherId := leaf1.fatherPageId
      if fatherId = invalidPageId then pure ()
      else do
        let _ ← getPage fatherId
        checkForInternal fuel fatherId
  else pure ()

/-- `BPlusTree::MergeClean(leaf_guard)`: on underflow, compact the
tombstones, update or delete the parent entries (the empty-leaf branch
acquires the father page with no `INVALID_PAGE_ID` check), and either
delete a leaf with no merge partner (`some false`) or report that a merge
partner exists (`some true`); `none` when there was no underflow. -/
def mergeClean (fuel : Nat) (leafPid : Int) : TreeM (Option Bool) := do
  let leaf ← asLeaf (← getPage leafPid)
  if leaf.size < leaf.minSize then do
    let result ← isRightMerge leaf
    let leaf1 := leaf.cleanupTombs
    setPage leafPid (Page.leaf leaf1)
    if leaf1.isUpdate ∧ ¬leaf1.isEmpty then do
      let leaf2 := { leaf1 with isUpdate := false }
      setPage leafPid (Page.leaf leaf2)
      let fid := leaf2.fatherPageId
      let father ← asInternal (← getPage fid)
      match father.matchKey leaf2.beforeFirstKey with
      | some 0 => do
          setPage fid (Page.internal (father.updateKeyAt 0 (some leaf2.getMinKey)))
          deepDeleteOrUpdate fuel leaf2.beforeFirstKey (some leaf2.getMinKey) fid true
      | some fi => setPage fid (Page.internal (father.updateKeyAt fi (some leaf2.getMinKey)))
      | none => pure ()  -- `UpdateKey(-1, ...)`: out-of-bounds in the source
    else if leaf1.isEmpty then do
      let leaf2 := { leaf1 with isUpdate := false }
      setPage leafPid (Page.leaf leaf2)
      let fid := leaf2.fatherPageId
      -- the source acquires the father page here without any
      -- `INVALID_PAGE_ID` check: for a root leaf this is `WritePage(-1)`
      let father ← asInternal (← getPage fid)
      match father.matchKey leaf2.beforeFirstKey with
      | some 0 => do
          let father1 := father.deletePair 0
          setPage fid (Page.internal father1)
          if father1.size ≠ 0 then
            deepDeleteOrUpdate fuel leaf2.beforeFirstKey (some father1.getMinKey) fid true
          else deepDeleteOrUpdate fuel leaf2.beforeFirstKey none fid false
      | some fi => setPage fid (Page.internal (father.deletePair fi))
      | none => pure ()
    else pure ()
    match result with
    | none => do
      -- no merge partner: unlink and delete this leaf
      let lf ← asLeaf (← getPage leafPid)
      let nextId := lf.nextPageId
      let preId := lf.prePageId
      let fatherId := lf.fatherPageId
      if nextId ≠ invalidPageId then do
        let r ← asLeaf (← getPage nextId)
        setPage nextId (Page.leaf { r with prePageId := preId })
      else pure ()
      if preId ≠ invalidPageId then do
        let lft ← asLeaf (← getPage preId)
        setPage preId (Page.leaf { lft with nextPageId := nextId })
      else pure ()
      deletePageTree leafPid
      if fatherId = invalidPageId then pure (some false)
      else do
        let _ ← getPage fatherId
        checkForInternal fuel fatherId
        pure (some false)
    | some _ => pure (some true)
  else pure none

/-- `BPlusTree::Remove(key)`. -/
def removeT (cfg : TreeConfig) (fuel : Nat) (key : Int) : TreeM Unit := do
  let hdrId := (← get).headerPageId
  let rootId ← asHeader (← getPage hdrId)
  if rootId = invalidPageId then pure ()
  else do
    let pid ← locateKey fuel key rootId
    let leaf ← asLeaf (← getPage pid)
    let leaf1 := leaf.delete cfg.tombCap key
    setPage pid (Page.leaf leaf1)
    if cfg.tombCap ≠ 0 ∧ leaf1.needDeepUpdate then do
      let leaf2 := { leaf1 with needDeepUpdate := false }
      setPage pid (Page.leaf leaf2)
      if leaf2.isUpdate ∧ ¬leaf2.isEmpty then
        deepUpdate fuel pid leaf2.beforeFirstKey
      else if leaf2.isUpdate ∧ leaf2.isEmpty then do
        let fid := leaf2.fatherPageId
        let father ← asInternal (← getPage fid)
        match father.matchKey leaf2.beforeFirstKey with
        | some 0 => do
            let father1 := father.deletePair 0
            setPage fid (Page.internal father1)
            if father1.size ≠ 0 then
              deepDeleteOrUpdate fuel leaf2.beforeFirstKey (some father1.getMinKey) fid true
            else deepDeleteOrUpdate fuel leaf2.beforeFirstKey none fid false
        | some fi => setPage fid (Page.internal (father.deletePair fi))
        | none => pure ()
        let l3 ← asLeaf (← getPage pid)
        setPage pid (Page.leaf { l3 with isUpdate := false })
      else pure ()
      let l4 ← asLeaf (← getPage pid)
      if l4.isTombstone 0 then setPage pid (Page.leaf { l4 with isUpdate := true })
      else pure ()
    else pure ()
    let dres ← distributionClean fuel pid
    if ¬dres then do
      let mres ← mergeClean fuel pid
      if mres = some false then pure ()
      else checkForLeaf fuel pid
    else checkForLeaf fuel pid

/-! ## Specification-side formalizations and concrete instances -/

/-- The eviction rule exactly as the specification claim words it: "if the
resident MRU list is longer than the target `p`, or the MFU list has no
evictable entry, the victim is taken from the LRU end of MRU; otherwise
from the LRU end of MFU". -/
def claimVictim (r : ArcReplacer) : Option Nat :=
  if r.mruTargetSize < r.mru.length ∨ r.findFromListTail r.mfu = none then
    r.findFromListTail r.mru
  else r.findFromListTail r.mfu

/-- C1: the configuration `leaf_max = internal_max = 4`, `TOMB_CAP = 2`
(an instantiated template configuration of the repository). -/
def c1Cfg : TreeConfig := { leafMax := 4, internalMax := 4, tombCap := 2 }

/-- C1: the tree after inserting key 10 with record id 77 into the empty
tree. -/
def c1AfterInsert : TreeState :=
  match (insertT c1Cfg 20 10 77).run emptyTree with
  | Except.ok (_, s) => s
  | Except.error _ => emptyTree

/-- C2: a leaf with a full tombstone buffer (`TOMB_CAP = 2`). -/
def c2Leaf : LeafPage :=
  { maxSize := 4, keys := [1, 2, 3], rids := [10, 20, 30], tombstones := [0, 2] }

/-- C3: a replacer tracking frame 1 (resident in MRU, currently pinned and
not evictable). -/
def c3Replacer : ArcReplacer :=
  { replacerSize := 2, mru := [1],
    alive := [(1, ⟨5, 1, false, ArcStatus.mru⟩)], mruTargetSize := 0, currSize := 0 }

/-- C3: a pool whose frame 1 caches page 5 with `pin_count = 2` (two live
read guards). -/
def c3Pool : PoolState :=
  { frames := [⟨1, 5, 2, false, [0, 0]⟩], pageTable := [(5, 1)],
    freeFrames := [], replacer := c3Replacer }

/-- C3: one of the two read guards on page 5 / frame 1. -/
def c3Guard : ReadPageGuard :=
  { pageId := 5, frame := some 1, hasReplacer := true, hasBpmLatch := true,
    hasDiskSched := true, lockOwns := true, isValid := true }

/-- C4: a replacer with `|mru| = p = 1` and evictable frames in both
resident lists (frame 1 in MRU, frame 2 in MFU). -/
def c4State : ArcReplacer :=
  { replacerSize := 2, mru := [1], mfu := [2],
    alive := [(1, ⟨5, 1, true, ArcStatus.mru⟩), (2, ⟨6, 2, true, ArcStatus.mfu⟩)],
    mruTargetSize := 1, currSize := 2 }

/-- C5: a pool with an unpinned dirty page 7 in frame 0 and a pinned
page 9 in frame 1. -/
def c5Pool : PoolState :=
  { frames := [⟨0, 7, 0, true, [3, 4]⟩, ⟨1, 9, 2, false, [5, 6]⟩],
    pageTable := [(7, 0), (9, 1)], freeFrames := [2],
    replacer := { replacerSize := 3 } }

/-- C6: a pool whose frame 3 caches page 9 with the dirty bit set. -/
def c6Pool : PoolState :=
  { frames := [⟨3, 9, 1, true, [7, 7]⟩], pageTable := [(9, 3)], freeFrames := [],
    replacer := { replacerSize := 1, mru := [3], alive := [(3, ⟨9, 3, false, ArcStatus.mru⟩)] } }

/-- C6: a valid write guard on page 9 / frame 3. -/
def c6Guard : WritePageGuard :=
  { pageId := 9, frame := some 3, hasReplacer := true, hasBpmLatch := true,
    hasDiskSched := true, lockOwns := true, isValid := true }

/-- C7: a pool whose frame 2 caches page 7 with one pin. -/
def c7Pool : PoolState :=
  { frames := [⟨2, 7, 1, false, [1, 2]⟩], pageTable := [(7, 2)], freeFrames := [],
    replacer := { replacerSize := 1, mru := [2], alive := [(2, ⟨7, 2, false, ArcStatus.mru⟩)] } }

/-- C7: a valid write guard on page 7 / frame 2, the move source. -/
def c7Src : WritePageGuard :=
  { pageId := 7, frame := some 2, hasReplacer := true, hasBpmLatch := true,
    hasDiskSched := true, lockOwns := true, isValid := true }

/-- C7: a default-constructed (invalid) guard, the move destination. -/
def c7Dst : WritePageGuard := {}

/-- C8: two chained leaves; leaf 1 holds keys 5, 6 with slot 1 tombstoned,
leaf 2 holds only a tombstoned slot. -/
def c8Pages : LeafPool :=
  [(1, { pageId := 1, nextPageId := 2, maxSize := 4,
         keys := [5, 6], rids := [1, 2], tombstones := [1] }),
   (2, { pageId := 2, prePageId := 1, maxSize := 4,
         keys := [7], rids := [3], tombstones := [0] })]

/-- C9: an internal page populated by
`FirstInsert(10, 20, 100, 200)` on a freshly initialized page. -/
def c9Page : InternalPage :=
  InternalPage.firstInsert 10 20 100 200 (InternalPage.init 4)

/-- C10: a pool with a dirty pinned page 4 in frame 0. -/
def c10Pool : PoolState :=
  { frames := [⟨0, 4, 3, true, [8, 9]⟩], pageTable := [(4, 0)], freeFrames := [1],
    replacer := { replacerSize := 2 } }

/-! ## Helper lemmas -/

theorem length_eraseAt {α : Type} :
    ∀ (n : Nat) (xs : List α), n < xs.length → (eraseAt n xs).length = xs.length - 1 := by
  intro n
  induction n with
  | zero =>
    intro xs h
    cases xs with
    | nil => simp at h
    | cons a t => simp [eraseAt]
  | succ m ih =>
    intro xs h
    cases xs with
    | nil => simp at h
    | cons a t =>
      have ht : m < t.length := by simpa using h
      simp [eraseAt, ih t ht]
      omega

/-! ## Claim C2: leaf deletion with a full tombstone buffer -/

/-- C2.  For every leaf whose tombstone buffer is full
(`num_tombstones == TOMB_CAP > 0`), deleting a present, non-tombstoned key
(`MatchKey` succeeds at `index`) first physically removes the slot of the
oldest tombstone `t0` (shifting the key/value entries down, decrementing
the size by one, and decrementing every other tombstone index greater than
`t0`), and then appends the new tombstone for the deleted key (adjusted
when the expelled slot was below it); the tombstone count ends at exactly
`TOMB_CAP`, so it never exceeds it. -/
theorem c2_leaf_delete_full_tombstones (cap : Nat) (l : LeafPage) (key : Int) (index : Nat)
    (hcap : 0 < cap) (hfull : l.tombstones.length = cap)
    (hwf : ∀ t ∈ l.tombstones, t < l.keys.length)
    (hmatch : l.matchKey cap key = some index) :
    ∃ t0 rest, l.tombstones = t0 :: rest ∧
      (l.delete cap key).keys = eraseAt t0 l.keys ∧
      (l.delete cap key).rids = eraseAt t0 l.rids ∧
      (l.delete cap key).keys.length = l.keys.length - 1 ∧
      (l.delete cap key).tombstones =
        rest.map (fun t => if t0 < t then t - 1 else t) ++
          [if t0 < index then index - 1 else index] ∧
      (l.delete cap key).tombstones.length = cap := by
  obtain ⟨t0, rest, hts⟩ : ∃ t0 rest, l.tombstones = t0 :: rest := by
    cases h : l.tombstones with
    | nil => rw [h] at hfull; simp at hfull; omega
    | cons a b => exact ⟨a, b, rfl⟩
  have hcapne : ¬cap = 0 := by omega
  have hlefull : cap ≤ l.tombstones.length := by omega
  have ht0 : t0 < l.keys.length := hwf t0 (by rw [hts]; exact List.mem_cons_self t0 rest)
  have hrest : rest.length = cap - 1 := by
    have := hfull
    rw [hts] at this
    simp at this
    omega
  have hdel :
      l.delete cap key =
        { l with
          keys := eraseAt t0 l.keys,
          rids := eraseAt t0 l.rids,
          tombstones :=
            (rest.map fun t => if t0 < t then t - 1 else t) ++
              [if t0 < index then index - 1 else index],
          beforeFirstKey := if t0 = 0 then l.keys.getD t0 0 else l.beforeFirstKey,
          needDeepUpdate := if t0 = 0 then true else l.needDeepUpdate,
          isUpdate :=
            if !l.isUpdate ∧ (if t0 < index then index - 1 else index) = 0 then true
            else l.isUpdate } := by
    rw [LeafPage.delete, hmatch]
    simp only [hcapne, if_false, hts, LeafPage.markTomb]
    have hle : cap ≤ (t0 :: rest).length := by rw [← hts]; exact hlefull
    rw [if_pos hle]
    split <;> (split <;> rfl)
  refine ⟨t0, rest, hts, ?_, ?_, ?_, ?_, ?_⟩
  · rw [hdel]
  · rw [hdel]
  · rw [hdel]; exact length_eraseAt t0 l.keys ht0
  · rw [hdel]
  · rw [hdel]
    simp [hrest]
    omega

/-- C2 witness: the theorem applied to the concrete full-buffer leaf
`c2Leaf` (`TOMB_CAP = 2`), deleting key 2 at slot 1. -/
theorem c2_leaf_delete_full_tombstones_witness :
    (0 < 2 ∧ c2Leaf.tombstones.length = 2 ∧
      (∀ t ∈ c2Leaf.tombstones, t < c2Leaf.keys.length) ∧
      c2Leaf.matchKey 2 2 = some 1) ∧
    ∃ t0 rest, c2Leaf.tombstones = t0 :: rest ∧
      (c2Leaf.delete 2 2).keys = eraseAt t0 c2Leaf.keys ∧
      (c2Leaf.delete 2 2).rids = eraseAt t0 c2Leaf.rids ∧
      (c2Leaf.delete 2 2).keys.length = c2Leaf.keys.length - 1 ∧
      (c2Leaf.delete 2 2).tombstones =
        rest.map (fun t => if t0 < t then t - 1 else t) ++
          [if t0 < 1 then 1 - 1 else 1] ∧
      (c2Leaf.delete 2 2).tombstones.length = 2 :=
  ⟨⟨by decide, by decide, by decide, by decide⟩,
    c2_leaf_delete_full_tombstones 2 c2Leaf 2 1 (by decide) (by decide) (by decide) (by decide)⟩

/-! ## Claim C3: release of a guard on a still-pinned frame -/

/-- C3.  Releasing one of two read guards on frame 1 (pin count 2 → 1)
marks the frame evictable in the replacer even though its pin count is
still positive, and `Evict` then returns that pinned frame: the claimed
invariant "a frame with `pin_count > 0` is never chosen as an eviction
victim" fails on the code, whose `ReadPageGuard::Drop` calls
`SetEvictable(frame_id, true)` unconditionally. -/
theorem c3_drop_marks_pinned_frame_evictable :
    (((readGuardDrop c3Guard c3Pool).2.findFrame 1).map FrameHeader.pinCount = some 1) ∧
    (((readGuardDrop c3Guard c3Pool).2.replacer.alive.lookup 1).map FrameStatus.evictable
      = some true) ∧
    ((readGuardDrop c3Guard c3Pool).2.replacer.evict).1 = some 1 := by
  decide

/-! ## Claim C4: the victim list chosen by `Evict` -/

/-- `try_pick` written with `Option.or`: MFU first below target, MRU first
otherwise. -/
theorem tryPick_or (r : ArcReplacer) :
    r.tryPick =
      if r.mru.length < r.mruTargetSize then
        (r.findFromListTail r.mfu).or (r.findFromListTail r.mru)
      else (r.findFromListTail r.mru).or (r.findFromListTail r.mfu) := by
  rw [ArcReplacer.tryPick]
  split
  · cases r.findFromListTail r.mfu <;> simp [Option.or]
  · cases r.findFromListTail r.mru <;> simp [Option.or]

/-- A frame found by `find_from_list_tail` is in the list, alive and
evictable (which is why the source's double-check loop always exits on the
first pick). -/
theorem findFromListTail_mem (r : ArcReplacer) (lst : List Nat) (f : Nat)
    (h : r.findFromListTail lst = some f) :
    f ∈ lst ∧ ∃ st, r.alive.lookup f = some st ∧ st.evictable = true := by
  unfold ArcReplacer.findFromListTail at h
  have hm := List.mem_of_find?_eq_some h
  have hp := List.find?_some h
  refine ⟨List.mem_reverse.mp hm, ?_⟩
  revert hp
  cases hlk : r.alive.lookup f with
  | none => intro hp; simp at hp
  | some st => intro hp; exact ⟨st, rfl, by simpa using hp⟩

/-- When `try_pick` chose a frame whose alive record has a resident
status, `Evict` returns exactly that frame. -/
theorem evict_fst_of_pick (r : ArcReplacer) (f : Nat) (st : FrameStatus)
    (hp : r.tryPick = some f) (hl : r.alive.lookup f = some st)
    (hst : st.arcStatus = ArcStatus.mru ∨ st.arcStatus = ArcStatus.mfu) :
    (r.evict).1 = some f := by
  unfold ArcReplacer.evict
  rw [hp]
  dsimp only
  rw [hl]
  dsimp only
  rcases hst with h | h <;> rw [h]

/-- A frame picked by `try_pick` out of consistent resident lists is alive
with a resident status. -/
theorem pick_status (r : ArcReplacer)
    (hmru : ∀ f ∈ r.mru,
      (r.alive.lookup f).all (fun st => decide (st.arcStatus = ArcStatus.mru)) = true)
    (hmfu : ∀ f ∈ r.mfu,
      (r.alive.lookup f).all (fun st => decide (st.arcStatus = ArcStatus.mfu)) = true)
    (f : Nat) (h : r.tryPick = some f) :
    ∃ st, r.alive.lookup f = some st ∧
      (st.arcStatus = ArcStatus.mru ∨ st.arcStatus = ArcStatus.mfu) := by
  have hside : r.findFromListTail r.mru = some f ∨ r.findFromListTail r.mfu = some f := by
    rw [tryPick_or] at h
    split at h
    · cases hmf : r.findFromListTail r.mfu with
      | some g => rw [hmf] at h; simp [Option.or] at h; subst h; exact Or.inr rfl
      | none => rw [hmf] at h; simp [Option.or] at h; exact Or.inl h
    · cases hmr : r.findFromListTail r.mru with
      | some g => rw [hmr] at h; simp [Option.or] at h; subst h; exact Or.inl rfl
      | none => rw [hmr] at h; simp [Option.or] at h; exact Or.inr h
  rcases hside with hs | hs
  · obtain ⟨hmem, st, hl, _⟩ := findFromListTail_mem r r.mru f hs
    refine ⟨st, hl, Or.inl ?_⟩
    have h2 := hmru f hmem
    rw [hl] at h2
    simpa using h2
  · obtain ⟨hmem, st, hl, _⟩ := findFromListTail_mem r r.mfu f hs
    refine ⟨st, hl, Or.inr ?_⟩
    have h2 := hmfu f hmem
    rw [hl] at h2
    simpa using h2

/-- C4 counterexample.  With `|mru| = p = 1` and evictable frames in both
resident lists, the claim's rule ("`|mru| > p` or no MFU victim ⇒ MRU,
otherwise MFU; in particular at `|mru| == p` MFU is victimized") names
frame 2 from MFU, but `Evict` victimizes frame 1 from MRU: the code
prefers MRU already when `|mru| ≥ p`. -/
theorem c4_evict_tie_counterexample :
    claimVictim c4State = some 2 ∧ (c4State.evict).1 = some 1 ∧
    (c4State.evict).1 ≠ claimVictim c4State := by
  decide

/-- C4 (amended).  For every replacer whose resident lists carry matching
alive statuses: if `|mru| ≥ p` (not `>`), or the MFU list has no evictable
entry, the victim is the LRU-most evictable frame of MRU (falling back to
MFU when MRU has none); otherwise it is the LRU-most evictable frame of
MFU.  In particular, at `|mru| == p` with both lists evictable, MRU is
victimized. -/
theorem c4_evict_victim_choice (r : ArcReplacer)
    (hmru : ∀ f ∈ r.mru,
      (r.alive.lookup f).all (fun st => decide (st.arcStatus = ArcStatus.mru)) = true)
    (hmfu : ∀ f ∈ r.mfu,
      (r.alive.lookup f).all (fun st => decide (st.arcStatus = ArcStatus.mfu)) = true) :
    ((r.mruTargetSize ≤ r.mru.length ∨ r.findFromListTail r.mfu = none) →
        (r.evict).1 = (r.findFromListTail r.mru).or (r.findFromListTail r.mfu)) ∧
    ((r.mru.length < r.mruTargetSize ∧ r.findFromListTail r.mfu ≠ none) →
        (r.evict).1 = r.findFromListTail r.mfu) := by
  constructor
  · intro hcond
    have hrhs : r.tryPick = (r.findFromListTail r.mru).or (r.findFromListTail r.mfu) := by
      rw [tryPick_or]
      rcases hcond with hle | hnone
      · rw [if_neg (by omega)]
      · by_cases hc : r.mru.length < r.mruTargetSize
        · rw [if_pos hc, hnone]
          cases r.findFromListTail r.mru <;> simp [Option.or]
        · rw [if_neg hc]
    cases hp : r.tryPick with
    | none =>
      have he : (r.evict).1 = none := by unfold ArcReplacer.evict; rw [hp]
      rw [he, ← hrhs, hp]
    | some f =>
      obtain ⟨st, hl, hst⟩ := pick_status r hmru hmfu f hp
      rw [evict_fst_of_pick r f st hp hl hst, ← hrhs, hp]
  · rintro ⟨hlt, hne⟩
    cases hmf : r.findFromListTail r.mfu with
    | none => exact absurd hmf hne
    | some f =>
      have hp : r.tryPick = some f := by
        rw [tryPick_or, if_pos hlt, hmf]; simp [Option.or]
      obtain ⟨st, hl, hst⟩ := pick_status r hmru hmfu f hp
      exact evict_fst_of_pick r f st hp hl hst

/-- C4 witness: the amended victim rule applied to the concrete tie state
`c4State` (`|mru| = p`, both lists evictable). -/
theorem c4_evict_victim_choice_witness :
    (∀ f ∈ c4State.mru,
      (c4State.alive.lookup f).all (fun st => decide (st.arcStatus = ArcStatus.mru)) = true) ∧
    (∀ f ∈ c4State.mfu,
      (c4State.alive.lookup f).all (fun st => decide (st.arcStatus = ArcStatus.mfu)) = true) ∧
    (((c4State.mruTargetSize ≤ c4State.mru.length ∨
          c4State.findFromListTail c4State.mfu = none) →
        (c4State.evict).1 =
          (c4State.findFromListTail c4State.mru).or (c4State.findFromListTail c4State.mfu)) ∧
      ((c4State.mru.length < c4State.mruTargetSize ∧
          c4State.findFromListTail c4State.mfu ≠ none) →
        (c4State.evict).1 = c4State.findFromListTail c4State.mfu)) :=
  ⟨by decide, by decide, c4_evict_victim_choice c4State (by decide) (by decide)⟩

/-! ## Claim C5: `DeletePage` -/

/-- Updating the first frame with a given id, when `find?` located it and
the update preserves the id, updates exactly the frame `find?` sees. -/
theorem findFrame_updateFirstFrame (u : FrameHeader → FrameHeader) (fid : Nat)
    (frames : List FrameHeader) (fr : FrameHeader)
    (h : frames.find? (fun f => f.frameId = fid) = some fr)
    (hu : (u fr).frameId = fr.frameId) :
    (updateFirstFrame u fid frames).find? (fun f => f.frameId = fid) = some (u fr) := by
  induction frames with
  | nil => simp at h
  | cons g rest ih =>
    simp only [updateFirstFrame]
    by_cases hg : g.frameId = fid
    · rw [if_pos hg]
      rw [List.find?_cons_of_pos _ (by simpa using hg)] at h
      have hfr : g = fr := by injection h
      subst hfr
      exact List.find?_cons_of_pos _ (by simp [hu, hg])
    · rw [if_neg hg]
      rw [List.find?_cons_of_neg _ (by simpa using hg)] at h
      rw [List.find?_cons_of_neg _ (by simpa using hg)]
      exact ih h

/-- Erasing a key from an association list by filtering makes its lookup
fail. -/
theorem lookup_filter_ne {β : Type} (l : List (Int × β)) (pid : Int) :
    (l.filter (fun p => p.1 ≠ pid)).lookup pid = none := by
  induction l with
  | nil => rfl
  | cons a rest ih =>
    obtain ⟨k, v⟩ := a
    by_cases ha : k = pid
    · simpa [List.filter_cons, ha] using ih
    · have hf : ((k, v) :: rest).filter (fun p => p.1 ≠ pid)
          = (k, v) :: rest.filter (fun p => p.1 ≠ pid) := by
        simp [List.filter_cons, ha]
      rw [hf]
      have hbeq : (pid == k) = false := beq_eq_false_iff_ne.mpr fun hh => ha hh.symm
      simp only [List.lookup, hbeq]
      exact ih

/-- C5.  `DeletePage(page_id)` returns `true` with no state change and no
disk operation when the page is not in the page table; returns `false`
with no change when the cached frame is pinned; and otherwise resets the
frame (bytes zeroed, pin count 0, dirty bit cleared, page id invalidated),
removes the page-table entry, pushes the frame onto the free list,
requests deallocation from the disk layer and returns `true`. -/
theorem c5_delete_page_cases (s : PoolState) (pid : Int) :
    (s.pageTable.lookup pid = none → s.deletePage pid = (true, s, [])) ∧
    (∀ fid fr, s.pageTable.lookup pid = some fid → s.findFrame fid = some fr →
        fr.pinCount ≠ 0 → s.deletePage pid = (false, s, [])) ∧
    (∀ fid fr, s.pageTable.lookup pid = some fid → s.findFrame fid = some fr →
        fr.pinCount = 0 →
        (s.deletePage pid).1 = true ∧
        (s.deletePage pid).2.1.findFrame fid =
          some { fr with data := List.replicate fr.data.length 0, pinCount := 0,
                         isDirty := false, pageId := invalidPageId } ∧
        (s.deletePage pid).2.1.pageTable.lookup pid = none ∧
        (s.deletePage pid).2.1.freeFrames = fid :: s.freeFrames ∧
        (s.deletePage pid).2.2 = [DiskOp.deallocate pid]) := by
  refine ⟨?_, ?_, ?_⟩
  · intro h
    simp [PoolState.deletePage, h]
  · intro fid fr h1 h2 h3
    simp [PoolState.deletePage, h1, h2, h3]
  · intro fid fr h1 h2 h3
    have hdel : s.deletePage pid =
        (true,
          { s with
            frames := updateFirstFrame
              (fun f => { f.reset with pageId := invalidPageId }) fid s.frames,
            freeFrames := fid :: s.freeFrames,
            pageTable := s.pageTable.filter (fun p => p.1 ≠ pid) },
          [DiskOp.deallocate pid]) := by
      simp [PoolState.deletePage, h1, h2, h3]
    refine ⟨by rw [hdel], ?_, ?_, by rw [hdel], by rw [hdel]⟩
    · rw [hdel]
      exact findFrame_updateFirstFrame _ fid s.frames fr h2 rfl
    · rw [hdel]
      exact lookup_filter_ne s.pageTable pid

/-- C5 witness: the successful-deletion branch applied to the concrete
pool `c5Pool` at page 7 (cached unpinned in frame 0). -/
theorem c5_delete_page_cases_witness :
    (c5Pool.pageTable.lookup 7 = some 0 ∧
      c5Pool.findFrame 0 = some ⟨0, 7, 0, true, [3, 4]⟩ ∧
      (⟨0, 7, 0, true, [3, 4]⟩ : FrameHeader).pinCount = 0) ∧
    ((c5Pool.deletePage 7).1 = true ∧
      (c5Pool.deletePage 7).2.1.findFrame 0 =
        some { (⟨0, 7, 0, true, [3, 4]⟩ : FrameHeader) with
                data := List.replicate (⟨0, 7, 0, true, [3, 4]⟩ : FrameHeader).data.length 0,
                pinCount := 0, isDirty := false, pageId := invalidPageId } ∧
      (c5Pool.deletePage 7).2.1.pageTable.lookup 7 = none ∧
      (c5Pool.deletePage 7).2.1.freeFrames = 0 :: c5Pool.freeFrames ∧
      (c5Pool.deletePage 7).2.2 = [DiskOp.deallocate 7]) :=
  ⟨⟨by decide, by decide, by decide⟩,
    (c5_delete_page_cases c5Pool 7).2.2 0 ⟨0, 7, 0, true, [3, 4]⟩
      (by decide) (by decide) (by decide)⟩

/-! ## Claim C6: release of a dirty write guard -/

/-- C6 counterexample.  `c6Guard` is a valid write guard on frame 3, whose
dirty bit is set and which no `Flush` has cleared; releasing it hands no
request at all to the disk scheduler, refuting the claim that the release
issues a write of the frame's bytes before the pin count is decremented. -/
theorem c6_drop_issues_no_write_counterexample :
    (c6Pool.findFrame 3).map FrameHeader.isDirty = some true ∧
    (writeGuardDrop c6Guard c6Pool).2.2 = [] ∧
    ¬((writeGuardDrop c6Guard c6Pool).2.2.any DiskOp.isWrite = true) := by
  decide

/-- C6 (amended).  Releasing a `WritePageGuard` issues no write through
the disk scheduler; it releases the latch, decrements a nonzero pin count,
marks the frame evictable, sets the frame's dirty bit (deferring the
write-back to a later flush or eviction) and invalidates the guard.  An
explicit `Flush` on a valid guard whose frame is dirty is what issues the
write of the frame's bytes and clears the dirty bit. -/
theorem c6_write_guard_release (g : WritePageGuard) (s : PoolState) (fid : Nat)
    (fr : FrameHeader) (hframe : g.frame = some fid) (hfind : s.findFrame fid = some fr) :
    (writeGuardDrop g s).2.2 = [] ∧
    (writeGuardDrop g s).1.isValid = false ∧
    (writeGuardDrop g s).2.1.findFrame fid =
      some { fr with pinCount := if fr.pinCount ≠ 0 then fr.pinCount - 1 else fr.pinCount,
                     isDirty := true } ∧
    (writeGuardDrop g s).2.1.replacer = ArcReplacer.setEvictable fid true s.replacer ∧
    (g.isValid = true → fr.isDirty = true →
      writeGuardFlush g s =
        some ({ s with
                frames := updateFirstFrame (fun f => { f with isDirty := false }) fid s.frames },
          [DiskOp.write g.pageId fr.data])) := by
  have hdrop : writeGuardDrop g s =
      ({ g with lockOwns := false, isValid := false },
        { s with
          frames := updateFirstFrame
            (fun f =>
              { f with pinCount := if f.pinCount ≠ 0 then f.pinCount - 1 else f.pinCount,
                       isDirty := true }) fid s.frames,
          replacer := ArcReplacer.setEvictable fid true s.replacer }, []) := by
    simp [writeGuardDrop, hframe]
  refine ⟨by rw [hdrop], by rw [hdrop], ?_, by rw [hdrop], ?_⟩
  · rw [hdrop]
    exact findFrame_updateFirstFrame _ fid s.frames fr hfind rfl
  · intro hv hd
    simp [writeGuardFlush, hv, hframe, hfind, hd]

/-- C6 witness: the amended release behaviour at the concrete dirty frame
3 and its valid write guard. -/
theorem c6_write_guard_release_witness :
    (c6Guard.frame = some 3 ∧ c6Pool.findFrame 3 = some ⟨3, 9, 1, true, [7, 7]⟩) ∧
    ((writeGuardDrop c6Guard c6Pool).2.2 = [] ∧
      (writeGuardDrop c6Guard c6Pool).1.isValid = false ∧
      (writeGuardDrop c6Guard c6Pool).2.1.findFrame 3 =
        some { (⟨3, 9, 1, true, [7, 7]⟩ : FrameHeader) with
                pinCount :=
                  if (⟨3, 9, 1, true, [7, 7]⟩ : FrameHeader).pinCount ≠ 0 then
                    (⟨3, 9, 1, true, [7, 7]⟩ : FrameHeader).pinCount - 1
                  else (⟨3, 9, 1, true, [7, 7]⟩ : FrameHeader).pinCount,
                isDirty := true } ∧
      (writeGuardDrop c6Guard c6Pool).2.1.replacer =
        ArcReplacer.setEvictable 3 true c6Pool.replacer ∧
      (c6Guard.isValid = true → (⟨3, 9, 1, true, [7, 7]⟩ : FrameHeader).isDirty = true →
        writeGuardFlush c6Guard c6Pool =
          some ({ c6Pool with
                  frames := updateFirstFrame (fun f => { f with isDirty := false }) 3
                    c6Pool.frames },
            [DiskOp.write c6Guard.pageId (⟨3, 9, 1, true, [7, 7]⟩ : FrameHeader).data]))) :=
  ⟨⟨by decide, by decide⟩,
    c6_write_guard_release c6Guard c6Pool 3 ⟨3, 9, 1, true, [7, 7]⟩ (by decide) (by decide)⟩

/-! ## Claim C7: move semantics of page guards -/

/-- C7.  Moving from the valid guard `c7Src` transfers the owned
resources (frame pointer, page id, validity) to the destination, and the
moved-from guard's release does nothing to the pool -- but the moved-from
guard is *not* left invalid: its `is_valid_` stays `true` and
`GetPageId()` returns the stale page id instead of trapping on the
`BUSTUB_ENSURE` assertion, contradicting the claim (and the source's own
doc comment, which demands invalidating the moved-from guard). -/
theorem c7_moved_from_guard_not_invalidated :
    (writeGuardMoveAssign c7Dst c7Src c7Pool).1.frame = some 2 ∧
    (writeGuardMoveAssign c7Dst c7Src c7Pool).1.isValid = true ∧
    (writeGuardMoveAssign c7Dst c7Src c7Pool).1.pageId = 7 ∧
    (writeGuardMoveAssign c7Dst c7Src c7Pool).2.1.frame = none ∧
    (writeGuardMoveAssign c7Dst c7Src c7Pool).2.1.isValid = true ∧
    WritePageGuard.getPageId (writeGuardMoveAssign c7Dst c7Src c7Pool).2.1 = some 7 ∧
    (writeGuardDrop (writeGuardMoveAssign c7Dst c7Src c7Pool).2.1
        (writeGuardMoveAssign c7Dst c7Src c7Pool).2.2).2.1 =
      (writeGuardMoveAssign c7Dst c7Src c7Pool).2.2 := by
  decide

/-! ## Claim C9: internal page layout -/

/-- C9 counterexample.  On the page built by `FirstInsert(10, 20, 100,
200)` the slot-0 key is the real separator 10 -- `GetMinKey` reads it and
`MatchKey` locates key 10 at slot 0 -- and the page stores exactly as many
child ids as keys (2 and 2), not `n + 1` children with an unused slot-0
key; moreover `SetKeyAt(1, 99)` overwrites physical slot 0. -/
theorem c9_sentinel_key_counterexample :
    c9Page.keys = [10, 20] ∧
    c9Page.getMinKey = 10 ∧
    c9Page.matchKey 10 = some 0 ∧
    c9Page.pageIds.length = c9Page.keys.length ∧
    ¬c9Page.pageIds.length = c9Page.keys.length + 1 ∧
    (c9Page.setKeyAt 1 99).keys = [99, 20] := by
  decide

/-- C9 (amended).  An internal page of size `n` stores `n` keys paired
with `n` child page ids at the *same* slots, and the slot-0 key is a real
key, not a sentinel: `FirstInsert(kl, kr, lp, rp)` stores the two keys
`kl, kr` against the two children `lp, rp` (size 2) and `GetMinKey` reads
`kl` back from slot 0.  `SetKeyAt` uses a shifted index convention: index
0 is ignored and index `i + 1` writes physical key slot `i`, leaving the
child ids untouched. -/
theorem c9_internal_page_layout (kl kr lp rp k : Int) (i : Nat) (p : InternalPage) :
    ((InternalPage.firstInsert kl kr lp rp p).keys = [kl, kr] ∧
      (InternalPage.firstInsert kl kr lp rp p).pageIds = [lp, rp] ∧
      (InternalPage.firstInsert kl kr lp rp p).size = 2 ∧
      (InternalPage.firstInsert kl kr lp rp p).getMinKey = kl) ∧
    InternalPage.setKeyAt p 0 k = p ∧
    (InternalPage.setKeyAt p (i + 1) k).keys = p.keys.set i k ∧
    (InternalPage.setKeyAt p (i + 1) k).pageIds = p.pageIds :=
  ⟨⟨rfl, rfl, rfl, rfl⟩, rfl, rfl, rfl⟩

/-! ## Claim C10: a successful flush resets the frame -/

/-- C10.  After `FlushPage(page_id)` succeeds on a cached page, the frame
has been passed through `FrameHeader::Reset`: its buffer bytes are zeroed,
its pin count stored as 0 and its dirty bit cleared, while the page stays
mapped in the page table -- the flush destroys the in-memory copy of the
page (its bytes survive only in the write request handed to the disk
scheduler).  `FlushPageUnsafe` does the same for a dirty frame, and both
`FlushAllPages` variants reset exactly the dirty frames, also leaving the
page table alone. -/
theorem c10_flush_resets_frame (pid : Int) (s : PoolState) (fid : Nat)
    (fr : FrameHeader) (hlk : s.pageTable.lookup pid = some fid)
    (hfind : s.findFrame fid = some fr) :
    (s.flushPage pid).1 = true ∧
    (s.flushPage pid).2.1.findFrame fid = some fr.reset ∧
    (fr.reset.data = List.replicate fr.data.length 0 ∧ fr.reset.pinCount = 0 ∧
      fr.reset.isDirty = false) ∧
    (s.flushPage pid).2.1.pageTable = s.pageTable ∧
    (s.flushPage pid).2.2 = [DiskOp.write pid fr.data] ∧
    (fr.isDirty = true → s.flushPageUnsafe pid = s.flushPage pid) ∧
    (s.flushAllPages.1.frames =
      s.frames.map (fun f => if f.isDirty then f.reset else f) ∧
      s.flushAllPages.1.pageTable = s.pageTable) ∧
    s.flushAllPagesUnsafe = s.flushAllPages := by
  have hflush : s.flushPage pid =
      (true, { s with frames := updateFirstFrame FrameHeader.reset fid s.frames },
        [DiskOp.write pid fr.data]) := by
    simp [PoolState.flushPage, hlk, hfind]
  refine ⟨by rw [hflush], ?_, ⟨rfl, rfl, rfl⟩, by rw [hflush], by rw [hflush], ?_,
    ⟨rfl, rfl⟩, rfl⟩
  · rw [hflush]
    exact findFrame_updateFirstFrame FrameHeader.reset fid s.frames fr hfind rfl
  · intro hd
    simp [PoolState.flushPageUnsafe, PoolState.flushPage, hlk, hfind, hd]

/-- C10 witness: flushing the dirty pinned page 4 cached in frame 0 of
`c10Pool`. -/
theorem c10_flush_resets_frame_witness :
    (c10Pool.pageTable.lookup 4 = some 0 ∧
      c10Pool.findFrame 0 = some ⟨0, 4, 3, true, [8, 9]⟩) ∧
    ((c10Pool.flushPage 4).1 = true ∧
      (c10Pool.flushPage 4).2.1.findFrame 0 =
        some (⟨0, 4, 3, true, [8, 9]⟩ : FrameHeader).reset ∧
      ((⟨0, 4, 3, true, [8, 9]⟩ : FrameHeader).reset.data =
          List.replicate (⟨0, 4, 3, true, [8, 9]⟩ : FrameHeader).data.length 0 ∧
        (⟨0, 4, 3, true, [8, 9]⟩ : FrameHeader).reset.pinCount = 0 ∧
        (⟨0, 4, 3, true, [8, 9]⟩ : FrameHeader).reset.isDirty = false) ∧
      (c10Pool.flushPage 4).2.1.pageTable = c10Pool.pageTable ∧
      (c10Pool.flushPage 4).2.2 =
        [DiskOp.write 4 (⟨0, 4, 3, true, [8, 9]⟩ : FrameHeader).data] ∧
      ((⟨0, 4, 3, true, [8, 9]⟩ : FrameHeader).isDirty = true →
        c10Pool.flushPageUnsafe 4 = c10Pool.flushPage 4) ∧
      (c10Pool.flushAllPages.1.frames =
        c10Pool.frames.map (fun f => if f.isDirty then f.reset else f) ∧
        c10Pool.flushAllPages.1.pageTable = c10Pool.pageTable) ∧
      c10Pool.flushAllPagesUnsafe = c10Pool.flushAllPages) :=
  ⟨⟨by decide, by decide⟩,
    c10_flush_resets_frame 4 c10Pool 0 ⟨0, 4, 3, true, [8, 9]⟩ (by decide) (by decide)⟩

/-! ## Claim C1: insert/remove round-trip -/

/-- C1.  The round-trip fails already for the one-element sequence
`S = [(10, 77)]` with `leaf_max = internal_max = 4` and `TOMB_CAP = 2`:
the insert succeeds and `GetValue(10)` finds record id 77, but
`Remove(10)` does not produce a tree with an empty iteration range --
it sends the root leaf (underfull after the delete, and emptied once the
tombstone budget forces physical removal) through the empty-leaf branch
of `MergeClean`, which write-acquires the leaf's father page whose id is
`INVALID_PAGE_ID` (the sibling branch guards against exactly this, the
empty branch does not), modelled here as the error
`TreeErr.invalidPageAccess (-1)`; the header's root page id is never
reset. -/
theorem c1_remove_empties_root_leaf_underflow :
    Except.map Prod.fst ((insertT c1Cfg 20 10 77).run emptyTree) = Except.ok true ∧
    Except.map Prod.fst ((getValueT c1Cfg 20 10).run c1AfterInsert) =
      Except.ok (true, [77]) ∧
    (removeT c1Cfg 20 10).run c1AfterInsert =
      Except.error (TreeErr.invalidPageAccess invalidPageId) := by
  refine ⟨rfl, rfl, rfl⟩

/-! ## Claim C8: iterator advance -/

/-- `find?` only depends on the predicate's values on the list. -/
theorem find?_congr {α : Type} (xs : List α) (p q : α → Bool)
    (h : ∀ x ∈ xs, p x = q x) : xs.find? p = xs.find? q := by
  induction xs with
  | nil => rfl
  | cons a t ih =>
    have ha := h a (List.mem_cons_self a t)
    have ht := fun x hx => h x (List.mem_cons_of_mem a hx)
    cases hq : q a with
    | true =>
      rw [List.find?_cons_of_pos _ (ha.trans hq), List.find?_cons_of_pos _ hq]
    | false =>
      rw [List.find?_cons_of_neg _ (by simp [ha, hq]),
        List.find?_cons_of_neg _ (by simp [hq])]
      exact ih ht

/-- Membership in the live slots of a leaf. -/
theorem mem_liveSlots (l : LeafPage) (j : Nat) :
    j ∈ liveSlots l ↔ j < l.size ∧ l.isTombstone j = false := by
  simp [liveSlots, List.mem_filter, List.mem_range]

/-- The live slots are listed in increasing order. -/
theorem liveSlots_sorted (l : LeafPage) : List.Pairwise (· < ·) (liveSlots l) :=
  List.Pairwise.filter _ (List.pairwise_lt_range l.size)

/-- In a strictly increasing list containing `i`, the first element `≥ i`
is `i` itself. -/
theorem find_ge_sorted : ∀ (xs : List Nat), List.Pairwise (· < ·) xs →
    ∀ i, i ∈ xs → xs.find? (fun j => decide (i ≤ j)) = some i := by
  intro xs
  induction xs with
  | nil => intro _ i hi; simp at hi
  | cons a t ih =>
    intro hp i hi
    rcases List.mem_cons.mp hi with h | h
    · subst h
      exact List.find?_cons_of_pos _ (by simp)
    · have ha : a < i := (List.pairwise_cons.mp hp).1 i h
      rw [List.find?_cons_of_neg _ (by simp; omega)]
      exact ih (List.pairwise_cons.mp hp).2 i h

/-- The in-page tombstone-skipping loop computes the first live slot
`≥ i`, or the page size when the rest of the page is all tombstones. -/
theorem skipTombsGo_spec (l : LeafPage) :
    ∀ (k i : Nat), l.size - i = k → i ≤ l.size →
      skipTombsGo l k i =
        ((liveSlots l).find? (fun j => decide (i ≤ j))).getD l.size := by
  intro k
  induction k with
  | zero =>
    intro i hk hle
    have hi : i = l.size := by omega
    subst hi
    have hnone : (liveSlots l).find? (fun j => decide (l.size ≤ j)) = none := by
      rw [List.find?_eq_none]
      intro x hx
      have hxl := (mem_liveSlots l x).mp hx
      simp
      omega
    simp [skipTombsGo, hnone]
  | succ k ih =>
    intro i hk hle
    have hilt : i < l.size := by omega
    by_cases ht : l.isTombstone i = true
    · have hstep : skipTombsGo l (k + 1) i = skipTombsGo l k (i + 1) := by
        simp [skipTombsGo, hilt, ht]
      rw [hstep, ih (i + 1) (by omega) (by omega)]
      have hcongr : (liveSlots l).find? (fun j => decide (i + 1 ≤ j)) =
          (liveSlots l).find? (fun j => decide (i ≤ j)) := by
        apply find?_congr
        intro x hx
        have hxl := (mem_liveSlots l x).mp hx
        have hxi : x ≠ i := by
          intro he
          rw [he, ht] at hxl
          exact Bool.noConfusion hxl.2
        simp only [decide_eq_decide]
        omega
      rw [hcongr]
    · have htf : l.isTombstone i = false := by simpa using ht
      have hmem : i ∈ liveSlots l := (mem_liveSlots l i).mpr ⟨hilt, htf⟩
      have hfind := find_ge_sorted (liveSlots l) (liveSlots_sorted l) i hmem
      simp [skipTombsGo, htf, hfind]

/-- `claimNextLive` on an absent page id. -/
theorem claimNextLive_lookup_none (pages : LeafPool) (pid : Int)
    (h : pages.lookup pid = none) :
    ∀ (fuel start : Nat), claimNextLive pages fuel pid start = none := by
  intro fuel start
  cases fuel with
  | zero => rfl
  | succ k => simp [claimNextLive, h]

/-- The source's leaf-crossing loop, entered at the first live slot `≥ i`
of the current leaf, computes exactly the claim's next-live-entry
function. -/
theorem advanceLoop_eq_claimNextLive (pages : LeafPool) :
    ∀ (fuel : Nat) (pid : Int) (l : LeafPage) (i : Nat),
      pages.lookup pid = some l → i ≤ l.size →
      advanceLoop pages fuel pid l (skipTombs l i) = claimNextLive pages fuel pid i := by
  intro fuel
  induction fuel with
  | zero => intro pid l i _ _; rfl
  | succ k ih =>
    intro pid l i hlk hle
    have hskip : skipTombs l i =
        ((liveSlots l).find? (fun j => decide (i ≤ j))).getD l.size :=
      skipTombsGo_spec l (l.size - i) i rfl hle
    cases hfind : (liveSlots l).find? (fun j => decide (i ≤ j)) with
    | some j =>
      have hjmem := List.mem_of_find?_eq_some hfind
      have hjlt : j < l.size := ((mem_liveSlots l j).mp hjmem).1
      have hidx : skipTombs l i = j := by rw [hskip, hfind]; rfl
      rw [hidx]
      simp only [advanceLoop, claimNextLive, hlk, hfind]
      rw [if_pos hjlt]
    | none =>
      have hidx : skipTombs l i = l.size := by rw [hskip, hfind]; rfl
      rw [hidx]
      simp only [advanceLoop, claimNextLive, hlk, hfind, lt_self_iff_false, if_false]
      by_cases hnext : l.nextPageId = invalidPageId
      · simp [hnext]
      · rw [if_neg hnext, if_neg hnext]
        cases hlk2 : pages.lookup l.nextPageId with
        | none =>
          simp only [hlk2]
          rw [claimNextLive_lookup_none pages l.nextPageId hlk2 k 0]
        | some l2 =>
          simp only [hlk2]
          exact ih l.nextPageId l2 0 hlk2 (Nat.zero_le _)

/-- C8.  The iterator behaves as claimed: on a live entry of a present
leaf, `operator++` moves to the next non-tombstoned slot, crossing to the
leaf named by `next_page_id` (repeatedly over all-tombstone leaves) when
the current leaf is exhausted, and yields the `(-1, -1)` sentinel when no
next leaf exists (the specification-side `claimNextLive`); it is a no-op
on the sentinel; the constructor starting at slot 0 skips leading
tombstones the same way and maps an invalid page id to the sentinel; and
iterator equality is equality of the `(page_id_, index_)` pair. -/
theorem c8_iterator_refines_claim (pages : LeafPool) (fuel : Nat) (it : Iterator)
    (pid : Int) (l l' : LeafPage) :
    (¬it.pageId = invalidPageId → ¬it.index = -1 →
      pages.lookup it.pageId = some l → it.index.toNat < l.size →
      incr pages fuel it = claimNextLive pages fuel it.pageId (it.index.toNat + 1)) ∧
    (it.pageId = invalidPageId ∨ it.index = -1 → incr pages fuel it = some it) ∧
    (¬pid = invalidPageId → pages.lookup pid = some l' →
      mkIterator pages fuel pid = claimNextLive pages fuel pid 0) ∧
    (pid = invalidPageId → mkIterator pages fuel pid = some ⟨pid, -1⟩) ∧
    (∀ b : Iterator, iterEq it b = true ↔ it.pageId = b.pageId ∧ it.index = b.index) := by
  refine ⟨?_, ?_, ?_, ?_, ?_⟩
  · intro h1 h2 hlk hsz
    have hno : ¬(it.pageId = invalidPageId ∨ it.index = -1) := by tauto
    simp only [incr, if_neg hno, hlk]
    exact advanceLoop_eq_claimNextLive pages fuel it.pageId l (it.index.toNat + 1) hlk hsz
  · intro h
    simp only [incr, if_pos h]
  · intro hpid hlk
    simp only [mkIterator, if_neg hpid, hlk]
    exact advanceLoop_eq_claimNextLive pages fuel pid l' 0 hlk (Nat.zero_le _)
  · intro hpid
    simp only [mkIterator, if_pos hpid]
  · intro b
    simp [iterEq]

/-- C8 witness: advancing from the live slot 0 of leaf 1 of `c8Pages`
(the next slot and the whole of leaf 2 are tombstoned, so the result is
the sentinel on both sides), the sentinel no-op, `Begin` on leaf 2 and on
an invalid page id, and iterator equality at concrete iterators. -/
theorem c8_iterator_refines_claim_witness :
    incr c8Pages 3 ⟨1, 0⟩ = claimNextLive c8Pages 3 (Iterator.mk 1 0).pageId
      ((Iterator.mk 1 0).index.toNat + 1) ∧
    incr c8Pages 3 ⟨invalidPageId, -1⟩ = some ⟨invalidPageId, -1⟩ ∧
    mkIterator c8Pages 3 2 = claimNextLive c8Pages 3 2 0 ∧
    mkIterator c8Pages 3 invalidPageId = some ⟨invalidPageId, -1⟩ ∧
    (iterEq ⟨1, 0⟩ ⟨1, 2⟩ = true ↔
      (Iterator.mk 1 0).pageId = (Iterator.mk 1 2).pageId ∧
      (Iterator.mk 1 0).index = (Iterator.mk 1 2).index) :=
  ⟨(c8_iterator_refines_claim c8Pages 3 ⟨1, 0⟩ 2
      { pageId := 1, nextPageId := 2, maxSize := 4,
        keys := [5, 6], rids := [1, 2], tombstones := [1] }
      { pageId := 2, prePageId := 1, maxSize := 4,
        keys := [7], rids := [3], tombstones := [0] }).1
      (by decide) (by decide) (by decide) (by decide),
   (c8_iterator_refines_claim c8Pages 3 ⟨invalidPageId, -1⟩ 2
      { pageId := 1, nextPageId := 2, maxSize := 4,
        keys := [5, 6], rids := [1, 2], tombstones := [1] }
      { pageId := 2, prePageId := 1, maxSize := 4,
        keys := [7], rids := [3], tombstones := [0] }).2.1 (Or.inl rfl),
   (c8_iterator_refines_claim c8Pages 3 ⟨1, 0⟩ 2
      { pageId := 1, nextPageId := 2, maxSize := 4,
        keys := [5, 6], rids := [1, 2], tombstones := [1] }
      { pageId := 2, prePageId := 1, maxSize := 4,
        keys := [7], rids := [3], tombstones := [0] }).2.2.1
      (by decide) (by decide),
   (c8_iterator_refines_claim c8Pages 3 ⟨1, 0⟩ invalidPageId
      { pageId := 1, nextPageId := 2, maxSize := 4,
        keys := [5, 6], rids := [1, 2], tombstones := [1] }
      { pageId := 2, prePageId := 1, maxSize := 4,
        keys := [7], rids := [3], tombstones := [0] }).2.2.2.1 rfl,
   (c8_iterator_refines_claim c8Pages 3 ⟨1, 0⟩ 2
      { pageId := 1, nextPageId := 2, maxSize := 4,
        keys := [5, 6], rids := [1, 2], tombstones := [1] }
      { pageId := 2, prePageId := 1, maxSize := 4,
        keys := [7], rids := [3], tombstones := [0] }).2.2.2.2 ⟨1, 2⟩⟩

end BusTub
